import Mathlib

/-!
# Verification of the ia.json client protocol core

Shallow embedding of the ia.json client libraries (PHP port under
`IaJson\Client`, Node/TypeScript port under `@iajson/client`) and proofs
about the discovery, endpoint-resolution, signing, registration and OAuth
subsystems.

External collaborators (the HTTP transport, the JSON codec, the system
clock, the CSPRNG, and the HMAC / SHA-256 primitives of the host language)
enter the model as explicit parameters: HTTP responses are passed in as
values, `time()` / `Date.now()` as an `Int`, `random_bytes` output as a
byte list, and `hash_hmac` / `createHmac` as a function argument.  The
definitions themselves mirror the library source.
-/

namespace IaJson

/-! ## JSON values

Model of decoded JSON, as produced by PHP `json_decode($raw, true)`
(associative arrays) and by JavaScript `response.json()`. -/

inductive JValue where
  | null
  | bool (b : Bool)
  | num (n : Int)
  | str (s : String)
  | arr (items : List JValue)
  | obj (fields : List (String × JValue))
deriving Repr, BEq

/-- Field access `$v['key']` / `v.key`: defined (non-`undefined`) only on
objects.  PHP string/int offsets with a non-numeric string key and JS
property access on non-objects both yield no value. -/
def JValue.get? : JValue → String → Option JValue
  | .obj fields, key => List.lookup key fields
  | _, _ => none

/-- PHP `is_array($v)`: with `json_decode(..., true)` both JSON objects and
JSON arrays decode to PHP arrays. -/
def isPhpArray : JValue → Bool
  | .arr _ => true
  | .obj _ => true
  | _ => false

/-- JS `v !== null && typeof v === 'object'`: objects and arrays. -/
def isJsObject : JValue → Bool
  | .arr _ => true
  | .obj _ => true
  | _ => false

/-- PHP `isset($x)` on an array access result: the key exists and its value
is not null. -/
def phpIsset : Option JValue → Bool
  | some .null => false
  | some _ => true
  | none => false

/-- PHP `empty($x)` on an array access result: missing key, `null`, `false`,
`0`, `""`, `"0"`, and the empty array are all empty. -/
def phpEmpty : Option JValue → Bool
  | none => true
  | some .null => true
  | some (.bool false) => true
  | some (.num 0) => true
  | some (.str "") => true
  | some (.str "0") => true
  | some (.arr []) => true
  | some (.obj []) => true
  | some _ => false

/-! ## Error taxonomy

One constructor per `errorCode` string of the PHP `IaJsonException`
hierarchy / error class of the Node library.  `typeError` stands for a PHP
`TypeError` escaping a strictly-typed assignment or builtin call. -/

inductive IaErr where
  | notFound
  | fetchFailed
  | fileTooLarge
  | parseError
  | invalidFormat
  | networkError
  | validationError
  | unsupportedVersion
  | invalidDomain
  | httpError
  | contentTypeError
  | endpointNotFound
  | missingParameter
  | missingCredentials
  | missingOAuthToken
  | invalidResponse
  | verificationFailed
  | registrationFailed
  | invalidRegistration
  | signedKeyNotSupported
  | oauthTokenFailed
  | invalidTokenResponse
  | typeError
  | fromResponse (status : Nat)
  | authFromResponse (status : Nat)
  | rateLimited
  | requestFailed
deriving DecidableEq, Repr

/-- Which model errors correspond to the PHP `AuthenticationException`
subclass (relevant where the source catches exactly that class). -/
def IaErr.isAuthException : IaErr → Bool
  | .missingCredentials => true
  | .missingOAuthToken => true
  | .authFromResponse _ => true
  | _ => false

/-! ## Signer (`src/Auth/Signer.php`)

`hash_hmac($algorithm, $data, $key)` is a PHP builtin; it enters the model
as the function parameter `hmac algorithm data key`. -/

/-- `Signer::buildSigningString`: the exact literal `"{timestamp}.{body}"`. -/
def buildSigningString (timestamp : Int) (body : String) : String :=
  toString timestamp ++ "." ++ body

/-- `Signer::sign`: HMAC over the signing string, hex digest returned by the
`hmac` collaborator. -/
def Signer.sign (hmac : String → String → String → String)
    (secret : String) (timestamp : Int) (body : String)
    (algorithm : String := "sha256") : String :=
  hmac algorithm (buildSigningString timestamp body) secret

/-- PHP `hash_equals($known, $user)`: constant-time string comparison; its
value is plain string equality. -/
def hashEquals (known user : String) : Bool :=
  known == user

/-- `Signer::verify`: freshness check `abs($now - $timestamp) > $maxAgeSeconds`
first, then recompute and compare the signature. -/
def Signer.verify (hmac : String → String → String → String) (now : Int)
    (secret providedSignature : String) (timestamp : Int) (body : String)
    (algorithm : String := "sha256") (maxAgeSeconds : Int := 60) : Bool :=
  if ((now - timestamp).natAbs : Int) > maxAgeSeconds then false
  else hashEquals (Signer.sign hmac secret timestamp body algorithm) providedSignature

/-- `Signer::verify` instrumented with a ghost flag recording whether the
`hash_hmac` collaborator was invoked; the branch structure is exactly that
of `Signer.verify`. -/
def Signer.verifyInstr (hmac : String → String → String → String) (now : Int)
    (secret providedSignature : String) (timestamp : Int) (body : String)
    (algorithm : String := "sha256") (maxAgeSeconds : Int := 60) : Bool × Bool :=
  if ((now - timestamp).natAbs : Int) > maxAgeSeconds then (false, false)
  else (hashEquals (Signer.sign hmac secret timestamp body algorithm) providedSignature, true)

/-- The instrumented verifier computes the same verdict as `Signer.verify`. -/
theorem Signer.verifyInstr_fst (hmac : String → String → String → String) (now : Int)
    (secret providedSignature : String) (timestamp : Int) (body : String)
    (algorithm maxAgeSeconds) :
    (Signer.verifyInstr hmac now secret providedSignature timestamp body algorithm
        maxAgeSeconds).1 =
      Signer.verify hmac now secret providedSignature timestamp body algorithm
        maxAgeSeconds := by
  unfold Signer.verifyInstr Signer.verify
  split <;> rfl

/-- `Signer::createSignedHeaders`: three headers, current wall-clock
timestamp; association-list order follows the source. -/
def Signer.createSignedHeaders (hmac : String → String → String → String) (now : Int)
    (apiKey secret body : String) (algorithm : String := "sha256")
    (pfx : String := "X-IA-") : List (String × String) :=
  [(pfx ++ "Key", apiKey),
   (pfx ++ "Signature", Signer.sign hmac secret now body algorithm),
   (pfx ++ "Timestamp", toString now)]

/-- C1: Signer round-trip.  For every secret, body, algorithm in
{sha256, sha512}, maxAgeSeconds, and timestamp `ts` with
`|now - ts| <= maxAgeSeconds` at verification time, verifying a signature
produced by `Signer.sign` with the same inputs returns `true`.  The HMAC
primitive is universally quantified, so the statement holds for the host
`hash_hmac` in particular. -/
theorem signer_roundtrip (hmac : String → String → String → String)
    (secret body alg : String) (maxAge now ts : Int)
    (halg : alg = "sha256" ∨ alg = "sha512")
    (hfresh : ((now - ts).natAbs : Int) ≤ maxAge) :
    Signer.verify hmac now secret (Signer.sign hmac secret ts body alg)
      ts body alg maxAge = true := by
  unfold Signer.verify hashEquals
  rw [if_neg (by omega)]
  simp

/-- Witness for C1 at concrete inputs. -/
theorem signer_roundtrip_witness :
    Signer.verify (fun a d k => a ++ "|" ++ d ++ "|" ++ k) 100 "s"
      (Signer.sign (fun a d k => a ++ "|" ++ d ++ "|" ++ k) "s" 90 "b" "sha256")
      90 "b" "sha256" 60 = true :=
  signer_roundtrip (fun a d k => a ++ "|" ++ d ++ "|" ++ k) "s" "b" "sha256" 60 100 90
    (Or.inl rfl) (by decide)

/-- C2: Replay-window rejection.  Whenever `|now - ts| > maxAgeSeconds`,
`Signer.verify` returns `false` for every provided signature (a correctly
computed one included), the instrumented run shows the HMAC collaborator is
never invoked on that path, and the elaborated default of the
`maxAgeSeconds` parameter is 60. -/
theorem signer_replay_reject (hmac : String → String → String → String)
    (secret sig body alg : String) (now ts maxAge : Int)
    (hstale : ((now - ts).natAbs : Int) > maxAge) :
    Signer.verify hmac now secret sig ts body alg maxAge = false ∧
    Signer.verifyInstr hmac now secret sig ts body alg maxAge = (false, false) ∧
    Signer.verify hmac now secret sig ts body alg =
      Signer.verify hmac now secret sig ts body alg 60 := by
  refine ⟨?_, ?_, rfl⟩
  · unfold Signer.verify
    rw [if_pos (by omega)]
  · unfold Signer.verifyInstr
    rw [if_pos (by omega)]

/-- Witness for C2 at concrete inputs: a correctly computed signature is
rejected 61 seconds later. -/
theorem signer_replay_reject_witness :
    Signer.verify (fun a d k => a ++ "|" ++ d ++ "|" ++ k) 161 "s"
      (Signer.sign (fun a d k => a ++ "|" ++ d ++ "|" ++ k) "s" 100 "b" "sha256")
      100 "b" "sha256" 60 = false :=
  (signer_replay_reject (fun a d k => a ++ "|" ++ d ++ "|" ++ k) "s"
    (Signer.sign (fun a d k => a ++ "|" ++ d ++ "|" ++ k) "s" 100 "b" "sha256")
    "b" "sha256" 161 100 60 (by decide)).1

/-! ## OAuth token lifecycle (`src/Auth/OAuth.php`)

The mutable token cell `(accessToken, refreshToken, expiresAt)` of the
`OAuth` instance, with the wall clock and the token-endpoint HTTP exchange
passed in explicitly. -/

structure OAuthTokens where
  accessToken : Option String
  refreshToken : Option String
  expiresAt : Option Int
deriving DecidableEq, Repr

/-- `OAuth::isExpired`: false when `expiresAt` is unset, otherwise
`time() >= $this->expiresAt - 30` (30-second clock-skew buffer). -/
def OAuth.isExpired (now : Int) (st : OAuthTokens) : Bool :=
  match st.expiresAt with
  | none => false
  | some e => now ≥ e - 30

/-- Outcome of the POST to the token endpoint inside
`OAuth::requestToken`: a Guzzle transport/HTTP exception, or a returned
body after `json_decode` (`.null` when the body was not valid JSON). -/
inductive TokenHttpOutcome where
  | failure
  | response (body : JValue)
deriving Repr

/-- PHP `(int)` cast of a decoded JSON value. -/
def phpIntCast : JValue → Int
  | .num n => n
  | .str s => (s.toInt?).getD 0
  | .bool true => 1
  | .bool false => 0
  | .null => 0
  | .arr [] => 0
  | .arr _ => 1
  | .obj [] => 0
  | .obj _ => 1

/-- `OAuth::requestToken`: validates the token response, then stores
`access_token`, `refresh_token` (kept when absent or null) and
`expiresAt = time() + (int) expires_in` (null when `expires_in` unset).
Non-string values assigned to the `?string` typed properties raise a PHP
`TypeError`, modelled as `.typeError`.  Returns the stored access token
together with the updated cell. -/
def OAuth.requestToken (now : Int) (st : OAuthTokens) (outcome : TokenHttpOutcome) :
    Except IaErr (String × OAuthTokens) :=
  match outcome with
  | .failure => .error .oauthTokenFailed
  | .response body =>
    if !isPhpArray body || phpEmpty (body.get? "access_token") then
      .error .invalidTokenResponse
    else
      match body.get? "access_token" with
      | some (.str tok) =>
        match body.get? "refresh_token" with
        | some (.str r) =>
          .ok (tok, { accessToken := some tok, refreshToken := some r,
                      expiresAt := if phpIsset (body.get? "expires_in") then
                          some (now + phpIntCast ((body.get? "expires_in").getD .null))
                        else none })
        | none =>
          .ok (tok, { accessToken := some tok, refreshToken := st.refreshToken,
                      expiresAt := if phpIsset (body.get? "expires_in") then
                          some (now + phpIntCast ((body.get? "expires_in").getD .null))
                        else none })
        | some .null =>
          .ok (tok, { accessToken := some tok, refreshToken := st.refreshToken,
                      expiresAt := if phpIsset (body.get? "expires_in") then
                          some (now + phpIntCast ((body.get? "expires_in").getD .null))
                        else none })
        | some _ => .error .typeError
      | _ => .error .typeError

/-- `OAuth::refreshAccessToken`: uses the stored refresh token when none is
passed; `AuthenticationException::missingOAuthToken()` when neither
exists; otherwise a `refresh_token` grant via `requestToken`. -/
def OAuth.refreshAccessToken (now : Int) (st : OAuthTokens) (outcome : TokenHttpOutcome)
    (refreshToken : Option String := none) : Except IaErr (String × OAuthTokens) :=
  match refreshToken.orElse (fun _ => st.refreshToken) with
  | none => .error .missingOAuthToken
  | some _ => OAuth.requestToken now st outcome

/-- `OAuth::getAccessToken`: errors when no access token is stored;
auto-refreshes when expired and a refresh token is held; returns the
(possibly refreshed) stored access token. -/
def OAuth.getAccessToken (now : Int) (st : OAuthTokens) (outcome : TokenHttpOutcome) :
    Except IaErr (String × OAuthTokens) :=
  match st.accessToken with
  | none => .error .missingOAuthToken
  | some tok =>
    if OAuth.isExpired now st = true ∧ st.refreshToken ≠ none then
      match OAuth.refreshAccessToken now st outcome with
      | .error e => .error e
      | .ok (t, st') => .ok (t, st')
    else .ok (tok, st)

/-- `OAuth::requestToken` never raises the missing-OAuth-token error: its
failures are transport (`oauth_token_failed`), response-shape
(`invalid_token_response`), or typed-assignment (`TypeError`) failures. -/
theorem OAuth.requestToken_ne_missing (now : Int) (st : OAuthTokens)
    (outcome : TokenHttpOutcome) :
    OAuth.requestToken now st outcome ≠ .error .missingOAuthToken := by
  intro h
  rcases outcome with _ | body
  · simp [OAuth.requestToken] at h
  · simp only [OAuth.requestToken] at h
    split at h
    · simp at h
    · split at h
      · split at h <;> simp at h
      · simp at h

/-- C10: token-retrieval edge cases of `OAuth::getAccessToken`.
(1) If an access token is stored, it is expired, and no refresh token is
held, the stored expired access token is returned without error and the
token cell is unchanged.  (2) `MissingOAuthToken` is raised exactly when no
access token is stored at all, whatever the refresh exchange would return.
(3) A token whose `expiresAt` is unset is never considered expired. -/
theorem oauth_get_access_token_edge (now : Int) (st : OAuthTokens)
    (outcome : TokenHttpOutcome) :
    (∀ tok, st.accessToken = some tok → OAuth.isExpired now st = true →
        st.refreshToken = none →
        OAuth.getAccessToken now st outcome = .ok (tok, st)) ∧
    (OAuth.getAccessToken now st outcome = .error .missingOAuthToken ↔
        st.accessToken = none) ∧
    (st.expiresAt = none → OAuth.isExpired now st = false) := by
  refine ⟨?_, ⟨?_, ?_⟩, ?_⟩
  · intro tok htok _ hrt
    simp [OAuth.getAccessToken, htok, hrt]
  · intro herr
    unfold OAuth.getAccessToken at herr
    split at herr
    · next heq => exact heq
    · next tok heq =>
      exfalso
      split at herr
      · next hc =>
        unfold OAuth.refreshAccessToken at herr
        rcases hrtv : st.refreshToken with _ | r
        · exact hc.2 hrtv
        · rw [hrtv] at herr
          simp only [Option.orElse, Option.none_orElse] at herr
          split at herr
          · next e heqr =>
            injection herr with h
            subst h
            exact OAuth.requestToken_ne_missing now st outcome heqr
          · exact Except.noConfusion herr
      · exact Except.noConfusion herr
  · intro hacc
    unfold OAuth.getAccessToken
    rw [hacc]
  · intro hexp
    unfold OAuth.isExpired
    rw [hexp]

/-- Witness for C10: an expired stored token with no refresh token is
returned as-is. -/
theorem oauth_get_access_token_edge_witness :
    OAuth.getAccessToken 100 ⟨some "tok", none, some 50⟩ .failure =
      .ok ("tok", ⟨some "tok", none, some 50⟩) :=
  (oauth_get_access_token_edge 100 ⟨some "tok", none, some 50⟩ .failure).1
    "tok" rfl (by decide) rfl

/-! ## Registration verification (`src/Auth/Register.php`,
`IaJsonClient::verify` in `src/IaJsonClient.php`) -/

/-- Outcome of an HTTP POST as seen by the PHP client: a Guzzle exception,
or a response with status code and `json_decode`d body (`.null` when the
raw body was not valid JSON). -/
inductive HttpOutcome where
  | failure
  | response (status : Nat) (body : JValue)
deriving Repr

/-- `Register::verify`: POSTs the verification code; a non-array body is an
`invalid_response`; HTTP >= 400 maps through `IaJsonException::fromResponse`;
an empty or missing `api_key` or `secret` is an `invalid_response`;
otherwise the credential body is returned. -/
def Register.verify (outcome : HttpOutcome) : Except IaErr JValue :=
  match outcome with
  | .failure => .error .verificationFailed
  | .response status body =>
    if !isPhpArray body then .error .invalidResponse
    else if status ≥ 400 then .error (.fromResponse status)
    else if phpEmpty (body.get? "api_key") || phpEmpty (body.get? "secret") then
      .error .invalidResponse
    else .ok body

/-- The credential-bearing state of a PHP `IaJsonClient` instance. -/
structure PhpClientState where
  apiKey : Option String := none
  secret : Option String := none
  oauthToken : Option String := none
  /-- Result of `$this->oauth->getAccessToken()` when the held OAuth helper
  is consulted; `none` models `$this->oauth === null`. -/
  oauthHelper : Option (Except IaErr String) := none
deriving Repr

/-- `IaJsonClient::verify`: requires the `auth.signed_key` config, runs
`Register::verify`, and stores the credentials via `setCredentials` only
after it returns; an exception leaves the stored credentials untouched.
Passing non-string credential values to `setCredentials(string, string)`
raises a PHP `TypeError`. -/
def IaJsonClient.verify (st : PhpClientState) (signedKeyCfg : Option JValue)
    (outcome : HttpOutcome) : Except IaErr JValue × PhpClientState :=
  match signedKeyCfg with
  | none => (.error .signedKeyNotSupported, st)
  | some _ =>
    match Register.verify outcome with
    | .error e => (.error e, st)
    | .ok creds =>
      match creds.get? "api_key", creds.get? "secret" with
      | some (.str k), some (.str s) =>
          (.ok creds, { st with apiKey := some k, secret := some s })
      | _, _ => (.error .typeError, st)

/-- C9: registration-verification atomicity.  (1) Any failing verification
leaves the stored credential state unchanged.  (2) A sub-400 response whose
body lacks a non-empty `api_key` or a non-empty `secret` fails with
`InvalidResponse` and stores nothing.  (3) The credential state changes
only after a successful response carrying non-empty `api_key` and
`secret`. -/
theorem register_verify_atomic (st : PhpClientState) (cfg : Option JValue)
    (outcome : HttpOutcome) :
    (∀ e, (IaJsonClient.verify st cfg outcome).1 = .error e →
        (IaJsonClient.verify st cfg outcome).2 = st) ∧
    (∀ status body, outcome = .response status body → status < 400 → cfg.isSome →
        (phpEmpty (body.get? "api_key") = true ∨ phpEmpty (body.get? "secret") = true) →
        IaJsonClient.verify st cfg outcome = (.error .invalidResponse, st)) ∧
    ((IaJsonClient.verify st cfg outcome).2 ≠ st →
        ∃ creds, (IaJsonClient.verify st cfg outcome).1 = .ok creds ∧
          phpEmpty (creds.get? "api_key") = false ∧
          phpEmpty (creds.get? "secret") = false) := by
  refine ⟨?_, ?_, ?_⟩
  · intro e herr
    unfold IaJsonClient.verify at herr ⊢
    rcases cfg with _ | c
    · rfl
    · rcases hrv : Register.verify outcome with e' | creds
      · simp [hrv]
      · simp only [hrv] at herr ⊢
        rcases hk : creds.get? "api_key" with _ | kv
        · simp [hk]
        · rcases hs : creds.get? "secret" with _ | sv
          · rcases kv with _ | b | n | k | a | o <;> simp [hk, hs]
          · rcases kv with _ | b | n | k | a | o <;>
              rcases sv with _ | b' | n' | s' | a' | o' <;>
              simp only [hk, hs] at herr ⊢ <;>
              first
                | rfl
                | exact absurd herr (by simp)
  · intro status body hout hlt hcfg hmiss
    subst hout
    rcases cfg with _ | c
    · simp at hcfg
    · have hrv : Register.verify (.response status body) = .error .invalidResponse := by
        unfold Register.verify
        have hnot : ¬ status ≥ 400 := by omega
        by_cases ha : isPhpArray body = true
        · have hem : (phpEmpty (body.get? "api_key") ||
              phpEmpty (body.get? "secret")) = true := by
            rcases hmiss with h | h <;> simp [h]
          simp [ha, hnot, hem]
        · have ha' : isPhpArray body = false := by
            exact Bool.eq_false_iff.mpr ha
          simp [ha']
      unfold IaJsonClient.verify
      simp [hrv]
  · intro hchanged
    unfold IaJsonClient.verify at hchanged ⊢
    rcases cfg with _ | c
    · simp at hchanged
    · rcases hrv : Register.verify outcome with e' | creds
      · simp [hrv] at hchanged
      · have hok : phpEmpty (creds.get? "api_key") = false ∧
            phpEmpty (creds.get? "secret") = false := by
          rcases outcome with _ | ⟨status, body⟩
          · exact Except.noConfusion hrv
          · unfold Register.verify at hrv
            by_cases ha : isPhpArray body = true
            · by_cases hst : status ≥ 400
              · simp [ha, hst] at hrv
              · by_cases hem : (phpEmpty (body.get? "api_key") ||
                    phpEmpty (body.get? "secret")) = true
                · simp [ha, hst, hem] at hrv
                · simp [ha, hst, hem] at hrv
                  simp only [Bool.or_eq_true, not_or, Bool.not_eq_true] at hem
                  rw [← hrv]
                  exact hem
            · have ha' : isPhpArray body = false := by
                revert ha
                cases isPhpArray body <;> simp
              simp [ha'] at hrv
        simp only [hrv] at hchanged ⊢
        rcases hk : creds.get? "api_key" with _ | kv
        · rw [hk] at hok
          simp [phpEmpty] at hok
        · rcases hs : creds.get? "secret" with _ | sv
          · rw [hs] at hok
            simp [phpEmpty] at hok
          · rcases kv with _ | b | n | k | a | o <;>
              rcases sv with _ | b' | n' | s' | a' | o' <;>
              simp only [hk, hs] at hchanged ⊢ <;>
              first
                | (exact ⟨creds, rfl, hok⟩)
                | exact absurd rfl hchanged

/-- Witness for C9 (Scenario D): a 200 response whose body lacks `secret`
yields `InvalidResponse` and the fresh client state stays credential-free. -/
theorem register_verify_atomic_witness :
    IaJsonClient.verify ⟨none, none, none, none⟩ (some (.obj []))
      (.response 200 (.obj [("api_key", .str "ak_1")])) =
      (.error .invalidResponse, ⟨none, none, none, none⟩) :=
  (register_verify_atomic ⟨none, none, none, none⟩ (some (.obj []))
    (.response 200 (.obj [("api_key", .str "ak_1")]))).2.1 200
    (.obj [("api_key", .str "ak_1")]) rfl (by decide) rfl
    (Or.inr (by decide))

/-! ## PKCE (`OAuth::getAuthorizationUrl`, `OAuth::generateCodeVerifier`,
`OAuth::generateCodeChallenge`)

`random_bytes(32)` output and `hash('sha256', ..., true)` are external
collaborators, passed in as a byte list and a function respectively. -/

/-- The `base64_encode` output alphabet, in table order. -/
def b64Alphabet : List Char :=
  "ABCDEFGHIJKLMNOPQRSTUVWXYZabcdefghijklmnopqrstuvwxyz0123456789+/".toList

def b64CharOf (n : Nat) : Char := b64Alphabet.getD n 'A'

/-- PHP `base64_encode` on a byte sequence: 3-byte groups become 4 sextet
characters; a trailing 2-byte (resp. 1-byte) group becomes 3 (resp. 2)
characters plus `=` padding.  The sextet arithmetic agrees with the bit
splitting for bytes below 256 (the only values `random_bytes` and raw
hashes produce). -/
def base64Encode : List Nat → List Char
  | a :: b :: c :: rest =>
      b64CharOf (a / 4) :: b64CharOf (a % 4 * 16 + b / 16) ::
        b64CharOf (b % 16 * 4 + c / 64) :: b64CharOf (c % 64) :: base64Encode rest
  | [a, b] => [b64CharOf (a / 4), b64CharOf (a % 4 * 16 + b / 16), b64CharOf (b % 16 * 4), '=']
  | [a] => [b64CharOf (a / 4), b64CharOf (a % 4 * 16), '=', '=']
  | [] => []

/-- `strtr($s, '+/', '-_')`, per character. -/
def b64UrlChar (c : Char) : Char :=
  if c = '+' then '-' else if c = '/' then '_' else c

/-- `rtrim($s, '=')`. -/
def rtrimEq (s : List Char) : List Char :=
  (s.reverse.dropWhile (fun c => c == '=')).reverse

/-- `OAuth::generateCodeVerifier`:
`rtrim(strtr(base64_encode(random_bytes(32)), '+/', '-_'), '=')`. -/
def generateCodeVerifier (randomBytes : List Nat) : List Char :=
  rtrimEq ((base64Encode randomBytes).map b64UrlChar)

/-- `OAuth::generateCodeChallenge`: base64url (padding stripped) of the raw
SHA-256 hash of the verifier. -/
def generateCodeChallenge (sha256 : List Char → List Nat)
    (codeVerifier : List Char) : List Char :=
  rtrimEq ((base64Encode (sha256 codeVerifier)).map b64UrlChar)

def bin2hexChar (n : Nat) : Char := "0123456789abcdef".toList.getD n '0'

/-- PHP `bin2hex`. -/
def bin2hex (bytes : List Nat) : List Char :=
  bytes.bind (fun b => [bin2hexChar (b / 16), bin2hexChar (b % 16)])

/-- Constructor arguments of the `OAuth` helper that matter for
authorization-URL building. -/
structure OAuthConfig where
  authorizationUrl : String
  tokenUrl : String
  clientId : String
  clientSecret : String := ""
  pkceRequired : Bool := false

structure AuthUrlResult where
  codeVerifier : Option (List Char)
  params : List (String × String)
deriving Repr

/-- `OAuth::getAuthorizationUrl`.  `$state ?: bin2hex(random_bytes(16))`
uses PHP truthiness (`""` and `"0"` are falsy).  The returned `url` string
is `authorizationUrl . '?' . http_build_query($params)`; the model keeps
the query-parameter array itself, in construction order. -/
def getAuthorizationUrl (cfg : OAuthConfig) (redirectUri : String)
    (scopes : List String) (state : String)
    (stateBytes verifierBytes : List Nat)
    (sha256 : List Char → List Nat) : AuthUrlResult :=
  let stateVal := if state = "" ∨ state = "0" then String.mk (bin2hex stateBytes) else state
  let params₀ := [("response_type", "code"), ("client_id", cfg.clientId),
    ("redirect_uri", redirectUri), ("state", stateVal)]
  let params₁ :=
    if scopes ≠ [] then params₀ ++ [("scope", String.intercalate " " scopes)] else params₀
  if cfg.pkceRequired then
    let cv := generateCodeVerifier verifierBytes
    { codeVerifier := some cv,
      params := params₁ ++
        [("code_challenge", String.mk (generateCodeChallenge sha256 cv)),
         ("code_challenge_method", "S256")] }
  else { codeVerifier := none, params := params₁ }

/-- The RFC 7636 unreserved alphabet `[A-Z] / [a-z] / [0-9] / - / . / _ / ~`. -/
def rfc7636Unreserved : List Char :=
  "ABCDEFGHIJKLMNOPQRSTUVWXYZabcdefghijklmnopqrstuvwxyz0123456789-._~".toList

theorem getD_mem_or_eq {α : Type} (l : List α) (n : Nat) (d : α) :
    l.getD n d ∈ l ∨ l.getD n d = d := by
  induction l generalizing n with
  | nil => right; rfl
  | cons a t ih =>
    cases n with
    | zero => left; simp [List.getD]
    | succ m =>
      rcases ih m with h | h
      · left
        simp only [List.getD, List.get?] at h ⊢
        exact List.mem_cons_of_mem a h
      · right
        simpa [List.getD, List.get?] using h

theorem b64CharOf_mem (n : Nat) : b64CharOf n ∈ b64Alphabet := by
  unfold b64CharOf
  rcases getD_mem_or_eq b64Alphabet n 'A' with h | h
  · exact h
  · rw [h]
    decide

theorem base64Encode_length :
    ∀ l : List Nat, (base64Encode l).length = 4 * ((l.length + 2) / 3)
  | [] => rfl
  | [_] => by simp [base64Encode]
  | [_, _] => by simp [base64Encode]
  | a :: b :: c :: rest => by
      have ih := base64Encode_length rest
      simp only [base64Encode, List.length_cons, ih]
      omega

theorem base64Encode_two_mod :
    ∀ l : List Nat, l.length % 3 = 2 →
      ∃ front, base64Encode l = front ++ ['='] ∧ ∀ c ∈ front, c ∈ b64Alphabet
  | [], hm => by simp at hm
  | [_], hm => by simp at hm
  | [a, b], _ => by
      refine ⟨[b64CharOf (a / 4), b64CharOf (a % 4 * 16 + b / 16),
        b64CharOf (b % 16 * 4)], rfl, ?_⟩
      intro c hc
      simp only [List.mem_cons, List.not_mem_nil, or_false] at hc
      rcases hc with h | h | h <;> (subst h; exact b64CharOf_mem _)
  | a :: b :: c :: rest, hm => by
      obtain ⟨front, hf, hmem⟩ := base64Encode_two_mod rest (by
        simp only [List.length_cons] at hm
        omega)
      refine ⟨b64CharOf (a / 4) :: b64CharOf (a % 4 * 16 + b / 16) ::
        b64CharOf (b % 16 * 4 + c / 64) :: b64CharOf (c % 64) :: front, ?_, ?_⟩
      · simp [base64Encode, hf]
      · intro x hx
        simp only [List.mem_cons] at hx
        rcases hx with h | h | h | h | h
        · subst h; exact b64CharOf_mem _
        · subst h; exact b64CharOf_mem _
        · subst h; exact b64CharOf_mem _
        · subst h; exact b64CharOf_mem _
        · exact hmem x h

theorem rtrimEq_append (l : List Char) (h : ∀ c ∈ l, c ≠ '=') :
    rtrimEq (l ++ ['=']) = l := by
  unfold rtrimEq
  rw [List.reverse_append]
  simp only [List.reverse_cons, List.reverse_nil, List.nil_append, List.singleton_append]
  rw [List.dropWhile_cons]
  simp only [beq_self_eq_true, if_true]
  have hrest : l.reverse.dropWhile (fun c => c == '=') = l.reverse := by
    rcases hr : l.reverse with _ | ⟨x, xs⟩
    · simp
    · rw [List.dropWhile_cons]
      have hx : x ∈ l := by
        rw [← List.mem_reverse, hr]
        exact List.mem_cons_self x xs
      have hne : (x == '=') = false := by
        simpa using h x hx
      rw [hne]
      simp
  rw [hrest, List.reverse_reverse]

/-- Structure of the code verifier for a 32-byte CSPRNG draw: exactly 43
characters, all from the RFC 7636 unreserved alphabet. -/
theorem generateCodeVerifier_spec (bytes : List Nat) (hlen : bytes.length = 32) :
    (generateCodeVerifier bytes).length = 43 ∧
    ∀ c ∈ generateCodeVerifier bytes, c ∈ rfc7636Unreserved := by
  obtain ⟨front, hf, hmem⟩ := base64Encode_two_mod bytes (by rw [hlen])
  have htotal := base64Encode_length bytes
  rw [hf, hlen] at htotal
  simp only [List.length_append, List.length_cons, List.length_nil] at htotal
  have hflen : front.length = 43 := by omega
  have hurl : ∀ y ∈ b64Alphabet, b64UrlChar y ∈ rfc7636Unreserved := by decide
  have hurlne : ∀ y ∈ b64Alphabet, b64UrlChar y ≠ '=' := by decide
  have hcv : generateCodeVerifier bytes = front.map b64UrlChar := by
    unfold generateCodeVerifier
    rw [hf, List.map_append]
    have : List.map b64UrlChar ['='] = ['='] := by decide
    rw [this]
    refine rtrimEq_append _ ?_
    intro c hc
    rcases List.mem_map.mp hc with ⟨x, hx, hcx⟩
    subst hcx
    exact hurlne x (hmem x hx)
  constructor
  · rw [hcv, List.length_map, hflen]
  · intro c hc
    rw [hcv] at hc
    rcases List.mem_map.mp hc with ⟨x, hx, hcx⟩
    subst hcx
    exact hurl x (hmem x hx)

/-- C8: PKCE generation.  When PKCE is required, the authorization attempt
derives its verifier from the 32 fresh CSPRNG bytes; the verifier's length
lies within [43, 128] (it is exactly 43) and every character belongs to the
RFC 7636 unreserved alphabet; the query parameters sent carry
`code_challenge = BASE64URL(SHA256(verifier))` (base64url with padding
stripped, over the raw SHA-256 hash supplied by the host) together with
`code_challenge_method = S256`. -/
theorem pkce_generation (cfg : OAuthConfig) (redirectUri : String)
    (scopes : List String) (state : String) (stateBytes verifierBytes : List Nat)
    (sha256 : List Char → List Nat)
    (hpkce : cfg.pkceRequired = true) (hlen : verifierBytes.length = 32) :
    (getAuthorizationUrl cfg redirectUri scopes state stateBytes verifierBytes
        sha256).codeVerifier = some (generateCodeVerifier verifierBytes) ∧
    43 ≤ (generateCodeVerifier verifierBytes).length ∧
    (generateCodeVerifier verifierBytes).length ≤ 128 ∧
    (∀ c ∈ generateCodeVerifier verifierBytes, c ∈ rfc7636Unreserved) ∧
    ("code_challenge",
        String.mk (rtrimEq ((base64Encode
          (sha256 (generateCodeVerifier verifierBytes))).map b64UrlChar))) ∈
      (getAuthorizationUrl cfg redirectUri scopes state stateBytes verifierBytes
        sha256).params ∧
    ("code_challenge_method", "S256") ∈
      (getAuthorizationUrl cfg redirectUri scopes state stateBytes verifierBytes
        sha256).params := by
  obtain ⟨hl, hchars⟩ := generateCodeVerifier_spec verifierBytes hlen
  refine ⟨?_, by omega, by omega, hchars, ?_, ?_⟩
  · simp [getAuthorizationUrl, hpkce]
  · unfold getAuthorizationUrl
    rw [hpkce]
    simp only [if_true]
    apply List.mem_append_right
    unfold generateCodeChallenge
    exact List.mem_cons_self _ _
  · unfold getAuthorizationUrl
    rw [hpkce]
    simp only [if_true]
    apply List.mem_append_right
    exact List.mem_cons_of_mem _ (List.mem_cons_self _ _)

/-- Witness for C8 at a concrete 32-byte draw. -/
theorem pkce_generation_witness :
    (getAuthorizationUrl ⟨"https://auth.example", "https://token.example", "cid",
        "", true⟩ "https://cb.example" [] "" (List.replicate 16 0)
        (List.replicate 32 0) (fun _ => [])).codeVerifier =
      some (generateCodeVerifier (List.replicate 32 0)) :=
  (pkce_generation ⟨"https://auth.example", "https://token.example", "cid",
      "", true⟩ "https://cb.example" [] "" (List.replicate 16 0)
      (List.replicate 32 0) (fun _ => []) rfl (by simp)).1

/-! ## Discovery (`src/Discovery.php`, Node `discovery.ts`)

The two HTTP GETs (primary `/ia.json`, fallback `/.well-known/ia.json`)
enter the model as `FetchOutcome` values; the JSON parse of the raw body is
carried inside the response (`json = none` models a parse failure). -/

structure RawBody where
  contentType : String
  len : Nat
  json : Option JValue
deriving Repr

inductive FetchOutcome where
  | transport
  | response (status : Nat) (body : RawBody)
deriving Repr

/-- `Discovery::validate` helper: `explode('.', $version)[0] ?? ''` — the
prefix of the version string before the first dot. -/
def phpMajorOf (v : String) : String :=
  String.mk (v.toList.takeWhile (fun c => c != '.'))

/-- PHP `Discovery::validate`: presence of `version`/`site`/`api`, major
version `1`, `site.name`/`site.type`, `api.base_url`, and at least one
endpoint group — all `isset` checks; the validated data is returned
unchanged.  `explode()` on a non-string version raises a `TypeError` under
`strict_types`. -/
def phpValidate (d : JValue) : Except IaErr JValue :=
  if !phpIsset (d.get? "version") then .error .validationError
  else if !phpIsset (d.get? "site") then .error .validationError
  else if !phpIsset (d.get? "api") then .error .validationError
  else
    match d.get? "version" with
    | some (.str v) =>
      if phpMajorOf v ≠ "1" then .error .unsupportedVersion
      else if !(phpIsset ((d.get? "site").bind (fun s => s.get? "name")) &&
                phpIsset ((d.get? "site").bind (fun s => s.get? "type"))) then
        .error .validationError
      else if !phpIsset ((d.get? "api").bind (fun a => a.get? "base_url")) then
        .error .validationError
      else if !(phpIsset ((d.get? "api").bind (fun a => a.get? "public")) ||
                phpIsset ((d.get? "api").bind (fun a => a.get? "protected")) ||
                phpIsset ((d.get? "api").bind (fun a => a.get? "user_required"))) then
        .error .validationError
      else .ok d
    | some _ => .error .typeError
    | none => .error .validationError

/-- PHP `Discovery::tryFetch`: 404 yields null (try the next location); any
other status >= 400 is terminal; a body over `MAX_FILE_SIZE = 1_048_576`
bytes is terminal; then the body is JSON-decoded and must be an array. -/
def phpTryFetch (o : FetchOutcome) : Except IaErr (Option JValue) :=
  match o with
  | .transport => .error .networkError
  | .response status body =>
    if status = 404 then .ok none
    else if status ≥ 400 then .error .fetchFailed
    else if body.len > 1048576 then .error .fileTooLarge
    else
      match body.json with
      | none => .error .parseError
      | some v => if !isPhpArray v then .error .invalidFormat else .ok (some v)

/-- PHP `Discovery::fetch` after domain normalization: primary location,
then (only when the primary returned null, i.e. a 404) the well-known
location, then `not_found`. -/
def phpFetch (primary fallback : FetchOutcome) : Except IaErr JValue :=
  match phpTryFetch primary with
  | .error e => .error e
  | .ok (some d) => phpValidate d
  | .ok none =>
    match phpTryFetch fallback with
    | .error e => .error e
    | .ok (some d) => phpValidate d
    | .ok none => .error .notFound

/-- JS `String.prototype.includes`. -/
def strContains (s sub : String) : Bool :=
  (List.range (s.toList.length + 1)).any
    (fun i => sub.toList.isPrefixOf (s.toList.drop i))

/-- Split a character list at every dot (JS `split('.')` on a
single-character separator). -/
def splitDot : List Char → List (List Char)
  | [] => [[]]
  | c :: rest =>
    if c = '.' then [] :: splitDot rest
    else
      match splitDot rest with
      | part :: parts => (c :: part) :: parts
      | [] => [[c]]

/-- The Node `validate` regex `^\d+\.\d+\.\d+$`: exactly three non-empty
all-digit runs separated by dots. -/
def nodeSemver (v : String) : Bool :=
  match splitDot v.toList with
  | [a, b, c] =>
      !a.isEmpty && a.all Char.isDigit && !b.isEmpty && b.all Char.isDigit &&
        !c.isEmpty && c.all Char.isDigit
  | _ => false

/-- JS `String.prototype.startsWith`. -/
def strStarts (s pre : String) : Bool := pre.toList.isPrefixOf s.toList

/-- Node `validate`, endpoint-group test:
`api[key] !== undefined && api[key] !== null && typeof api[key] === 'object'`. -/
def nodeGroupOk (api : JValue) (key : String) : Bool :=
  match api.get? key with
  | some v => isJsObject v
  | none => false

/-- Node `validate` (`discovery.ts`): top-level object; `version` a semver
string; `site` an object with non-empty string `name` and string `type`;
`api` an object whose `base_url` is an `https://` string; at least one
endpoint group present.  Each failed check throws a `DiscoveryError`;
the model records only success/failure. -/
def nodeValidate (d : JValue) : Bool :=
  isJsObject d &&
  (match d.get? "version" with
   | some (.str v) => nodeSemver v
   | _ => false) &&
  (match d.get? "site" with
   | some site =>
     isJsObject site &&
     (match site.get? "name" with
      | some (.str n) => !n.toList.isEmpty
      | _ => false) &&
     (match site.get? "type" with
      | some (.str _) => true
      | _ => false)
   | none => false) &&
  (match d.get? "api" with
   | some api =>
     isJsObject api &&
     (match api.get? "base_url" with
      | some (.str u) => strStarts u "https://"
      | _ => false) &&
     (nodeGroupOk api "public" || nodeGroupOk api "protected" ||
       nodeGroupOk api "user_required")
   | none => false)

/-- Node `tryFetch`: 404 yields null; any other non-2xx status is terminal
(`response.ok` is 200–299); a content type containing neither `json` nor
`text/plain` is terminal; the JSON body is then parsed and validated.
No body-size check is performed. -/
def nodeTryFetch (o : FetchOutcome) : Except IaErr (Option JValue) :=
  match o with
  | .transport => .error .networkError
  | .response status body =>
    if status = 404 then .ok none
    else if ¬ (200 ≤ status ∧ status < 300) then .error .httpError
    else if !(strContains body.contentType "json" ||
        strContains body.contentType "text/plain") then .error .contentTypeError
    else
      match body.json with
      | none => .error .parseError
      | some v => if nodeValidate v then .ok (some v) else .error .validationError

/-- Node `discover` after domain cleanup: iterate the two discovery paths,
returning the first non-null config; 404 at both yields the not-found
`DiscoveryError`. -/
def nodeDiscover (primary fallback : FetchOutcome) : Except IaErr JValue :=
  match nodeTryFetch primary with
  | .error e => .error e
  | .ok (some c) => .ok c
  | .ok none =>
    match nodeTryFetch fallback with
    | .error e => .error e
    | .ok (some c) => .ok c
    | .ok none => .error .notFound

/-- `phpTryFetch` asks for the next location (returns `ok none`) exactly on
a 404. -/
theorem phpTryFetch_none_iff (status : Nat) (body : RawBody) :
    phpTryFetch (.response status body) = .ok none ↔ status = 404 := by
  constructor
  · intro h
    by_cases h4 : status = 404
    · exact h4
    · exfalso
      simp only [phpTryFetch, if_neg h4] at h
      split at h
      · exact Except.noConfusion h
      · split at h
        · exact Except.noConfusion h
        · split at h
          · exact Except.noConfusion h
          · split at h
            · exact Except.noConfusion h
            · injection h with h'
              exact Option.noConfusion h'
  · intro h4
    simp [phpTryFetch, h4]

/-- `nodeTryFetch` asks for the next location exactly on a 404. -/
theorem nodeTryFetch_none_iff (status : Nat) (body : RawBody) :
    nodeTryFetch (.response status body) = .ok none ↔ status = 404 := by
  constructor
  · intro h
    by_cases h4 : status = 404
    · exact h4
    · exfalso
      simp only [nodeTryFetch, if_neg h4] at h
      split at h
      · exact Except.noConfusion h
      · split at h
        · exact Except.noConfusion h
        · split at h
          · exact Except.noConfusion h
          · split at h
            · injection h with h'
              exact Option.noConfusion h'
            · exact Except.noConfusion h
  · intro h4
    simp [nodeTryFetch, h4]

/-- C4 (amended): discovery fallback policy.  In both ports the fallback
location is consulted only when the primary returns a bare 404: for any
other primary outcome the result is independent of the fallback, and a
transport error is terminal.  In the PHP port any status >= 400 other than
404 is terminal and a 2xx body exceeding the 1 MiB ceiling is terminal
(`file_too_large`); in the Node port any non-2xx status other than 404 is
terminal, and no body-size ceiling exists (a primary 200 response of any
size is processed — see the counterexample).  After a bare 404 at the
primary, a manifest accepted at the well-known location is returned. -/
theorem discovery_fallback_policy (status : Nat) (body : RawBody)
    (fb fb' : FetchOutcome) :
    (status ≠ 404 →
      phpFetch (.response status body) fb = phpFetch (.response status body) fb' ∧
      nodeDiscover (.response status body) fb = nodeDiscover (.response status body) fb') ∧
    (phpFetch .transport fb = .error .networkError ∧
      nodeDiscover .transport fb = .error .networkError) ∧
    (status ≥ 400 → status ≠ 404 →
      phpFetch (.response status body) fb = .error .fetchFailed) ∧
    (¬ (200 ≤ status ∧ status < 300) → status ≠ 404 →
      nodeDiscover (.response status body) fb = .error .httpError) ∧
    (status ≠ 404 → status < 400 → body.len > 1048576 →
      phpFetch (.response status body) fb = .error .fileTooLarge) ∧
    (∀ m, nodeTryFetch fb = .ok (some m) →
      nodeDiscover (.response 404 body) fb = .ok m) ∧
    (∀ d, phpTryFetch fb = .ok (some d) →
      phpFetch (.response 404 body) fb = phpValidate d) := by
  refine ⟨?_, ⟨?_, ?_⟩, ?_, ?_, ?_, ?_, ?_⟩
  · intro h4
    constructor
    · unfold phpFetch
      rcases hp : phpTryFetch (.response status body) with e | od
      · rfl
      · rcases od with _ | d
        · exact absurd ((phpTryFetch_none_iff status body).mp hp) h4
        · rfl
    · unfold nodeDiscover
      rcases hp : nodeTryFetch (.response status body) with e | od
      · rfl
      · rcases od with _ | m
        · exact absurd ((nodeTryFetch_none_iff status body).mp hp) h4
        · rfl
  · rfl
  · rfl
  · intro h400 h4
    have hp : phpTryFetch (.response status body) = .error .fetchFailed := by
      simp [phpTryFetch, if_neg h4, h400]
    simp [phpFetch, hp]
  · intro hok h4
    have hp : nodeTryFetch (.response status body) = .error .httpError := by
      simp only [nodeTryFetch]
      rw [if_neg h4, if_pos hok]
    simp [nodeDiscover, hp]
  · intro h4 hlt hbig
    have h400 : ¬ status ≥ 400 := by omega
    have hp : phpTryFetch (.response status body) = .error .fileTooLarge := by
      simp [phpTryFetch, if_neg h4, if_neg h400, hbig]
    simp [phpFetch, hp]
  · intro m hfb
    have hp : nodeTryFetch (.response 404 body) = .ok none := by
      simp [nodeTryFetch]
    simp [nodeDiscover, hp, hfb]
  · intro d hfb
    have hp : phpTryFetch (.response 404 body) = .ok none := by
      simp [phpTryFetch]
    simp [phpFetch, hp, hfb]

/-- Witness for C4 at concrete inputs: a 500 at the primary location is a
terminal `fetch_failed` for the PHP discoverer, whatever waits at the
well-known location. -/
theorem discovery_fallback_policy_witness :
    phpFetch (.response 500 ⟨"application/json", 10, none⟩) .transport =
      .error .fetchFailed :=
  (discovery_fallback_policy 500 ⟨"application/json", 10, none⟩ .transport
    (.response 404 ⟨"", 0, none⟩)).2.2.1 (by omega) (by omega)

/-- A well-formed manifest used by the discovery counterexample. -/
def sampleManifest : JValue :=
  .obj [("version", .str "1.0.0"),
        ("site", .obj [("name", .str "TechStore"), ("type", .str "ecommerce")]),
        ("api", .obj [("base_url", .str "https://techstore.example/api"),
                      ("public", .obj [("search_products",
                        .obj [("method", .str "GET"),
                              ("path", .str "/products/search")])])])]

/-- C4 counterexample: the claim requires a response body exceeding the
1 MiB ceiling at the primary location to be a terminal failure, but the
Node discoverer applies no body-size ceiling: a 200 primary response of
1 MiB + 1 bytes is accepted and the manifest returned. -/
theorem discovery_no_size_ceiling_counterexample :
    nodeDiscover
      (.response 200 ⟨"application/json", 1048577, some sampleManifest⟩)
      .transport = .ok sampleManifest := by
  rfl

theorem bool_of_not_not {b : Bool} (h : ¬ ((!b) = true)) : b = true := by
  cases b
  · exact absurd (by decide) h
  · rfl

/-- What the Node `validate` actually guarantees when it accepts a
document. -/
theorem node_validate_implies (d : JValue) (h : nodeValidate d = true) :
    (∃ v, d.get? "version" = some (.str v) ∧ nodeSemver v = true) ∧
    (∃ site, d.get? "site" = some site ∧
      (∃ n, site.get? "name" = some (.str n) ∧ n.toList.isEmpty = false) ∧
      (∃ t, site.get? "type" = some (.str t))) ∧
    (∃ api, d.get? "api" = some api ∧
      (∃ u, api.get? "base_url" = some (.str u) ∧ strStarts u "https://" = true) ∧
      (nodeGroupOk api "public" = true ∨ nodeGroupOk api "protected" = true ∨
        nodeGroupOk api "user_required" = true)) := by
  unfold nodeValidate at h
  simp only [Bool.and_eq_true] at h
  obtain ⟨⟨⟨_, h2⟩, h3⟩, h4⟩ := h
  refine ⟨?_, ?_, ?_⟩
  · rcases hv : d.get? "version" with _ | v
    · simp only [hv] at h2
      exact absurd h2 (by decide)
    · rcases v with _ | b | n | s | items | fields <;> simp only [hv] at h2 <;>
        first
          | exact absurd h2 (by decide)
          | exact ⟨s, rfl, h2⟩
  · rcases hs : d.get? "site" with _ | site
    · simp only [hs] at h3
      exact absurd h3 (by decide)
    · simp only [hs, Bool.and_eq_true] at h3
      obtain ⟨⟨_, hname⟩, htype⟩ := h3
      refine ⟨site, rfl, ?_, ?_⟩
      · rcases hn : site.get? "name" with _ | nv
        · simp only [hn] at hname
          exact absurd hname (by decide)
        · rcases nv with _ | b | num' | n | items | fields <;>
            simp only [hn] at hname <;>
            first
              | exact absurd hname (by decide)
              | exact ⟨n, rfl, by simpa using hname⟩
      · rcases ht : site.get? "type" with _ | tv
        · simp only [ht] at htype
          exact absurd htype (by decide)
        · rcases tv with _ | b | num' | t | items | fields <;>
            simp only [ht] at htype <;>
            first
              | exact absurd htype (by decide)
              | exact ⟨t, rfl⟩
  · rcases ha : d.get? "api" with _ | api
    · simp only [ha] at h4
      exact absurd h4 (by decide)
    · simp only [ha, Bool.and_eq_true] at h4
      obtain ⟨⟨_, hurl⟩, hgrp⟩ := h4
      refine ⟨api, rfl, ?_, ?_⟩
      · rcases hu : api.get? "base_url" with _ | uv
        · simp only [hu] at hurl
          exact absurd hurl (by decide)
        · rcases uv with _ | b | num' | u | items | fields <;>
            simp only [hu] at hurl <;>
            first
              | exact absurd hurl (by decide)
              | exact ⟨u, rfl, hurl⟩
      · simpa [Bool.or_eq_true, or_assoc] using hgrp

/-- What the PHP `Discovery::validate` actually guarantees when it returns
a manifest. -/
theorem php_validate_implies (d r : JValue) (h : phpValidate d = .ok r) :
    r = d ∧
    (∃ v, d.get? "version" = some (.str v) ∧ phpMajorOf v = "1") ∧
    phpIsset ((d.get? "site").bind (fun s => s.get? "name")) = true ∧
    phpIsset ((d.get? "site").bind (fun s => s.get? "type")) = true ∧
    phpIsset ((d.get? "api").bind (fun a => a.get? "base_url")) = true ∧
    (phpIsset ((d.get? "api").bind (fun a => a.get? "public")) = true ∨
     phpIsset ((d.get? "api").bind (fun a => a.get? "protected")) = true ∨
     phpIsset ((d.get? "api").bind (fun a => a.get? "user_required")) = true) := by
  unfold phpValidate at h
  split at h
  · exact Except.noConfusion h
  · split at h
    · exact Except.noConfusion h
    · split at h
      · exact Except.noConfusion h
      · split at h
        · next v heqv =>
          split at h
          · exact Except.noConfusion h
          · next hmaj =>
            split at h
            · exact Except.noConfusion h
            · next hsite =>
              split at h
              · exact Except.noConfusion h
              · next h
                  hurl =>
                split at h
                · exact Except.noConfusion h
                · next hgrp =>
                  injection h with hr
                  have hsite' := bool_of_not_not hsite
                  rw [Bool.and_eq_true] at hsite'
                  have hurl' := bool_of_not_not hurl
                  have hgrp' := bool_of_not_not hgrp
                  simp only [Bool.or_eq_true] at hgrp'
                  rw [or_assoc] at hgrp'
                  exact ⟨hr.symm, ⟨v, heqv, not_ne_iff.mp hmaj⟩, hsite'.1,
                    hsite'.2, hurl', hgrp'⟩
        · exact Except.noConfusion h
        · exact Except.noConfusion h

/-- C5 (amended): structural validation postconditions of the two
discoverers.  The Node `validate` returns a manifest only if `version` is a
`MAJOR.MINOR.PATCH` string (any major version — it does not check the
supported major), `site.name` is a non-empty string, `site.type` a string,
`api.base_url` an `https://` string, and at least one endpoint group is an
object.  The PHP `Discovery::validate` returns a manifest (unchanged) only
if `version` is present with major component `"1"` (no full semver check),
`site.name`, `site.type` and `api.base_url` are set (no `https://` check),
and at least one endpoint group is set.  A document with no endpoint group
at all fails in both. -/
theorem validate_structural_conditions (d : JValue) :
    (nodeValidate d = true →
      (∃ v, d.get? "version" = some (.str v) ∧ nodeSemver v = true) ∧
      (∃ site, d.get? "site" = some site ∧
        (∃ n, site.get? "name" = some (.str n) ∧ n.toList.isEmpty = false) ∧
        (∃ t, site.get? "type" = some (.str t))) ∧
      (∃ api, d.get? "api" = some api ∧
        (∃ u, api.get? "base_url" = some (.str u) ∧ strStarts u "https://" = true) ∧
        (nodeGroupOk api "public" = true ∨ nodeGroupOk api "protected" = true ∨
          nodeGroupOk api "user_required" = true))) ∧
    (∀ r, phpValidate d = .ok r → r = d ∧
      (∃ v, d.get? "version" = some (.str v) ∧ phpMajorOf v = "1") ∧
      phpIsset ((d.get? "site").bind (fun s => s.get? "name")) = true ∧
      phpIsset ((d.get? "site").bind (fun s => s.get? "type")) = true ∧
      phpIsset ((d.get? "api").bind (fun a => a.get? "base_url")) = true ∧
      (phpIsset ((d.get? "api").bind (fun a => a.get? "public")) = true ∨
       phpIsset ((d.get? "api").bind (fun a => a.get? "protected")) = true ∨
       phpIsset ((d.get? "api").bind (fun a => a.get? "user_required")) = true)) ∧
    ((∀ api, d.get? "api" = some api →
        api.get? "public" = none ∧ api.get? "protected" = none ∧
          api.get? "user_required" = none) →
      nodeValidate d = false ∧ ∀ r, phpValidate d ≠ .ok r) := by
  refine ⟨fun h => node_validate_implies d h,
    fun r h => php_validate_implies d r h, ?_⟩
  intro hng
  constructor
  · cases hnv : nodeValidate d
    · rfl
    · exfalso
      obtain ⟨_, _, api, ha, _, hgrp⟩ := node_validate_implies d hnv
      obtain ⟨hp, hpr, hu⟩ := hng api ha
      rcases hgrp with hg | hg | hg <;> unfold nodeGroupOk at hg <;>
        simp [hp, hpr, hu] at hg
  · intro r hok
    obtain ⟨_, _, _, _, _, hgrp⟩ := php_validate_implies d r hok
    rcases hga : d.get? "api" with _ | api
    · rcases hgrp with hg | hg | hg <;> simp [hga, phpIsset] at hg
    · obtain ⟨hp, hpr, hu⟩ := hng api hga
      rcases hgrp with hg | hg | hg <;> simp [hga, hp, hpr, hu, phpIsset] at hg

/-- A manifest with major version 2 but otherwise well-formed. -/
def nodeMajorTwoManifest : JValue :=
  .obj [("version", .str "2.0.0"),
        ("site", .obj [("name", .str "S"), ("type", .str "saas")]),
        ("api", .obj [("base_url", .str "https://s.example/api"),
                      ("public", .obj [("ping",
                        .obj [("method", .str "GET"), ("path", .str "/ping")])])])]

/-- A manifest with a plain-HTTP `base_url` but otherwise well-formed for
the PHP validator. -/
def phpHttpManifest : JValue :=
  .obj [("version", .str "1.0.0"),
        ("site", .obj [("name", .str "S"), ("type", .str "saas")]),
        ("api", .obj [("base_url", .str "http://insecure.example/api"),
                      ("public", .obj [("ping",
                        .obj [("method", .str "GET"), ("path", .str "/ping")])])])]

/-- C5 counterexample: the claim requires a returned manifest to have major
version equal to the single supported major (1) and an `https://`
`base_url`, yet the Node validator accepts a `2.0.0` manifest and the PHP
validator accepts a plain-HTTP `base_url`. -/
theorem validate_structural_counterexample :
    nodeValidate nodeMajorTwoManifest = true ∧
    phpValidate phpHttpManifest = .ok phpHttpManifest :=
  ⟨rfl, rfl⟩

/-- A manifest with no endpoint group at all. -/
def noGroupManifest : JValue :=
  .obj [("version", .str "1.0.0"),
        ("site", .obj [("name", .str "S"), ("type", .str "saas")]),
        ("api", .obj [("base_url", .str "https://s.example/api")])]

/-- Witness for C5: the no-endpoint-group manifest fails both validators. -/
theorem validate_structural_conditions_witness :
    nodeValidate noGroupManifest = false ∧
    ∀ r, phpValidate noGroupManifest ≠ .ok r :=
  (validate_structural_conditions noGroupManifest).2.2
    (by
      intro api h
      injection h with h'
      subst h'
      exact ⟨rfl, rfl, rfl⟩)

/-! ## Endpoint resolution (`IaJsonClient::resolveEndpoint` in PHP,
`IaJsonClient.buildEndpointIndex` / `getEndpoint` in Node)

Endpoint groups are association lists in document order; a JSON object's
keys are unique, so group key lists are `Nodup`. -/

structure Endpoint where
  method : String
  path : String
deriving DecidableEq, Repr

/-- The `api` section as endpoint resolution consumes it: the three
optional tier groups. -/
structure ApiSection where
  baseUrl : String
  publicG : Option (List (String × Endpoint)) := none
  protectedG : Option (List (String × Endpoint)) := none
  userRequiredG : Option (List (String × Endpoint)) := none
deriving Repr

/-- `$this->spec['api'][$level]` / `this.config.api[level]`. -/
def ApiSection.group (api : ApiSection) : String → Option (List (String × Endpoint))
  | "public" => api.publicG
  | "protected" => api.protectedG
  | "user_required" => api.userRequiredG
  | _ => none

/-- The fixed tier iteration order in both ports. -/
def accessLevels : List String := ["public", "protected", "user_required"]

/-- The `foreach ($levels as $level)` loop of `resolveEndpoint`. -/
def resolveIn (api : ApiSection) (name : String) :
    List String → Option (Endpoint × String)
  | [] => none
  | lvl :: rest =>
    match List.lookup name ((api.group lvl).getD []) with
    | some e => some (e, lvl)
    | none => resolveIn api name rest

/-- PHP `IaJsonClient::resolveEndpoint`: first group in the fixed order
containing the name wins; the tier is merged in as `_level`. -/
def phpResolveEndpoint (api : ApiSection) (name : String) :
    Except IaErr (Endpoint × String) :=
  match resolveIn api name accessLevels with
  | some r => .ok r
  | none => .error .endpointNotFound

/-- An entry of the Node endpoint index. -/
structure ResolvedEndpoint where
  name : String
  level : String
  endpoint : Endpoint
deriving DecidableEq, Repr

/-- JS `Map.prototype.set`: updates the value in place when the key is
already present, otherwise appends. -/
def mapSet (m : List (String × ResolvedEndpoint)) (k : String)
    (v : ResolvedEndpoint) : List (String × ResolvedEndpoint) :=
  match m with
  | [] => [(k, v)]
  | (k', v') :: rest =>
    if k' = k then (k', v) :: rest else (k', v') :: mapSet rest k v

/-- Node `IaJsonClient.buildEndpointIndex`: for each level in order, for
each `[name, endpoint]` entry of the group, `index.set(name, entry)`. -/
def nodeBuildEndpointIndex (api : ApiSection) : List (String × ResolvedEndpoint) :=
  accessLevels.foldl
    (fun idx lvl =>
      match api.group lvl with
      | none => idx
      | some group =>
        group.foldl (fun idx p => mapSet idx p.1 ⟨p.1, lvl, p.2⟩) idx)
    []

/-- `this.endpointIndex.get(name)` (used by both `getEndpoint` and
`call`). -/
def nodeGetEndpoint (api : ApiSection) (name : String) : Option ResolvedEndpoint :=
  List.lookup name (nodeBuildEndpointIndex api)

/-- Resolution as the claim words it: the entry from the earliest tier in
the fixed order `public, protected, user_required`. -/
def firstTierHit (api : ApiSection) (name : String) : Option (Endpoint × String) :=
  ((List.lookup name ((api.publicG).getD [])).map (fun e => (e, "public"))).orElse
    (fun _ =>
      ((List.lookup name ((api.protectedG).getD [])).map
        (fun e => (e, "protected"))).orElse
      (fun _ => (List.lookup name ((api.userRequiredG).getD [])).map
        (fun e => (e, "user_required"))))

/-- The dual policy: the entry from the LATEST tier in the fixed order. -/
def lastTierHit (api : ApiSection) (name : String) : Option ResolvedEndpoint :=
  ((List.lookup name ((api.userRequiredG).getD [])).map
      (fun e => (⟨name, "user_required", e⟩ : ResolvedEndpoint))).orElse
    (fun _ =>
      ((List.lookup name ((api.protectedG).getD [])).map
        (fun e => (⟨name, "protected", e⟩ : ResolvedEndpoint))).orElse
      (fun _ => (List.lookup name ((api.publicG).getD [])).map
        (fun e => (⟨name, "public", e⟩ : ResolvedEndpoint))))

theorem lookup_append {β : Type} (l₁ l₂ : List (String × β)) (k : String) :
    List.lookup k (l₁ ++ l₂) = (List.lookup k l₁).orElse (fun _ => List.lookup k l₂) := by
  induction l₁ with
  | nil => simp [Option.orElse]
  | cons p rest ih =>
    rcases p with ⟨k', v⟩
    by_cases h : k = k'
    · subst h
      simp [List.lookup, Option.orElse]
    · have hb : (k == k') = false := by simp [h]
      simp [List.lookup, hb, ih, Option.orElse]

theorem lookup_mapSet_self (m : List (String × ResolvedEndpoint)) (k : String)
    (v : ResolvedEndpoint) : List.lookup k (mapSet m k v) = some v := by
  induction m with
  | nil => simp [mapSet, List.lookup]
  | cons p rest ih =>
    rcases p with ⟨k', v'⟩
    unfold mapSet
    by_cases h : k' = k
    · subst h
      simp [List.lookup]
    · rw [if_neg h]
      have hb : (k == k') = false := by simp [Ne.symm h]
      simp [List.lookup, hb, ih]

theorem lookup_mapSet_other (m : List (String × ResolvedEndpoint)) (k k' : String)
    (v : ResolvedEndpoint) (h : k ≠ k') :
    List.lookup k (mapSet m k' v) = List.lookup k m := by
  induction m with
  | nil =>
    have hb : (k == k') = false := by simp [h]
    simp [mapSet, List.lookup, hb]
  | cons p rest ih =>
    rcases p with ⟨k'', v''⟩
    unfold mapSet
    by_cases h2 : k'' = k'
    · subst h2
      have hb : (k == k'') = false := by simp [h]
      simp [List.lookup, hb]
    · rw [if_neg h2]
      by_cases h3 : k = k''
      · subst h3
        simp [List.lookup]
      · have hb : (k == k'') = false := by simp [h3]
        simp [List.lookup, hb, ih]

/-- Folding `Map.set` over a list of entries. -/
def insertAll (entries init : List (String × ResolvedEndpoint)) :
    List (String × ResolvedEndpoint) :=
  entries.foldl (fun m p => mapSet m p.1 p.2) init

theorem lookup_insertAll (entries : List (String × ResolvedEndpoint)) (k : String) :
    ∀ init, List.lookup k (insertAll entries init) =
      (List.lookup k entries.reverse).orElse (fun _ => List.lookup k init) := by
  induction entries with
  | nil => intro init; simp [insertAll, Option.orElse]
  | cons p rest ih =>
    intro init
    rcases p with ⟨k', v⟩
    unfold insertAll at ih ⊢
    simp only [List.foldl_cons]
    rw [ih (mapSet init k' v), List.reverse_cons, lookup_append]
    rcases hr : List.lookup k rest.reverse with _ | v''
    · simp only [Option.orElse, Option.none_orElse]
      by_cases hk : k = k'
      · subst hk
        rw [lookup_mapSet_self]
        simp [List.lookup]
      · rw [lookup_mapSet_other _ _ _ _ hk]
        have hb : (k == k') = false := by simp [hk]
        simp [List.lookup, hb, Option.orElse]
    · simp [Option.orElse]

theorem lookup_eq_none_of_not_mem (l : List (String × ResolvedEndpoint)) (k : String)
    (h : k ∉ l.map Prod.fst) : List.lookup k l = none := by
  induction l with
  | nil => rfl
  | cons p rest ih =>
    simp only [List.map_cons, List.mem_cons, not_or] at h
    have hb : (k == p.1) = false := by simp [h.1]
    rcases p with ⟨k', v⟩
    simp only [List.lookup, hb]
    exact ih h.2

theorem lookup_reverse_of_nodup (l : List (String × ResolvedEndpoint)) (k : String)
    (h : (l.map Prod.fst).Nodup) :
    List.lookup k l.reverse = List.lookup k l := by
  induction l with
  | nil => rfl
  | cons p rest ih =>
    rcases p with ⟨k', v⟩
    simp only [List.map_cons, List.nodup_cons] at h
    obtain ⟨hk', hrest⟩ := h
    simp only [List.reverse_cons]
    rw [lookup_append, ih hrest]
    by_cases hk : k = k'
    · subst hk
      rw [lookup_eq_none_of_not_mem rest k hk']
      simp [List.lookup, Option.orElse]
    · have hb : (k == k') = false := by simp [hk]
      rcases hr : List.lookup k rest with _ | v''
      · simp [List.lookup, hb, hr, Option.orElse]
      · simp [List.lookup, hb, hr, Option.orElse]

/-- Tag a group's entries with their tier, as `buildEndpointIndex` inserts
them. -/
def tagGroup (lvl : String) (g : Option (List (String × Endpoint))) :
    List (String × ResolvedEndpoint) :=
  (g.getD []).map (fun p => (p.1, (⟨p.1, lvl, p.2⟩ : ResolvedEndpoint)))

theorem lookup_tagGroup (lvl : String) (g : Option (List (String × Endpoint)))
    (name : String) :
    List.lookup name (tagGroup lvl g) =
      (List.lookup name (g.getD [])).map
        (fun e => (⟨name, lvl, e⟩ : ResolvedEndpoint)) := by
  unfold tagGroup
  induction g.getD [] with
  | nil => rfl
  | cons p rest ih =>
    by_cases h : name = p.1
    · have hb : (name == p.1) = true := by simp [h]
      simp [List.lookup, hb, h]
    · have hb : (name == p.1) = false := by simp [h]
      simp [List.lookup, hb, ih]

theorem tagGroup_keys (lvl : String) (g : Option (List (String × Endpoint))) :
    (tagGroup lvl g).map Prod.fst = (g.getD []).map Prod.fst := by
  unfold tagGroup
  rw [List.map_map]
  rfl

theorem nodeBuildEndpointIndex_eq (api : ApiSection) :
    nodeBuildEndpointIndex api =
      insertAll (tagGroup "public" api.publicG ++ tagGroup "protected" api.protectedG ++
        tagGroup "user_required" api.userRequiredG) [] := by
  have hstep : ∀ (lvl : String) (g : Option (List (String × Endpoint)))
      (idx : List (String × ResolvedEndpoint)),
      (match g with
       | none => idx
       | some group =>
         group.foldl (fun idx p => mapSet idx p.1 ⟨p.1, lvl, p.2⟩) idx) =
      insertAll (tagGroup lvl g) idx := by
    intro lvl g idx
    rcases g with _ | group
    · rfl
    · unfold insertAll tagGroup
      simp only [Option.getD_some]
      rw [List.foldl_map]
  unfold nodeBuildEndpointIndex insertAll
  simp only [accessLevels, List.foldl_cons, List.foldl_nil, List.foldl_append]
  have h1 : api.group "public" = api.publicG := rfl
  have h2 : api.group "protected" = api.protectedG := rfl
  have h3 : api.group "user_required" = api.userRequiredG := rfl
  rw [h1, h2, h3]
  rw [hstep "public" api.publicG [], hstep "protected" api.protectedG _,
    hstep "user_required" api.userRequiredG _]
  rfl

/-- With unique keys inside each group, the Node index resolves a name to
the entry of the LATEST tier containing it. -/
theorem nodeGetEndpoint_eq_lastTierHit (api : ApiSection) (name : String)
    (hpub : ((api.publicG.getD []).map Prod.fst).Nodup)
    (hprot : ((api.protectedG.getD []).map Prod.fst).Nodup)
    (huser : ((api.userRequiredG.getD []).map Prod.fst).Nodup) :
    nodeGetEndpoint api name = lastTierHit api name := by
  unfold nodeGetEndpoint
  rw [nodeBuildEndpointIndex_eq, lookup_insertAll]
  rw [List.reverse_append, List.reverse_append]
  rw [lookup_append, lookup_append]
  rw [lookup_reverse_of_nodup _ _ (by rw [tagGroup_keys]; exact huser),
    lookup_reverse_of_nodup _ _ (by rw [tagGroup_keys]; exact hprot),
    lookup_reverse_of_nodup _ _ (by rw [tagGroup_keys]; exact hpub)]
  rw [lookup_tagGroup, lookup_tagGroup, lookup_tagGroup]
  unfold lastTierHit
  rcases List.lookup name (api.userRequiredG.getD []) with _ | e₁ <;>
    rcases List.lookup name (api.protectedG.getD []) with _ | e₂ <;>
      rcases List.lookup name (api.publicG.getD []) with _ | e₃ <;>
        simp [Option.orElse]

/-- The PHP `foreach` resolution equals the first-tier-wins chain. -/
theorem resolveIn_eq_firstTierHit (api : ApiSection) (name : String) :
    resolveIn api name accessLevels = firstTierHit api name := by
  have h1 : api.group "public" = api.publicG := rfl
  have h2 : api.group "protected" = api.protectedG := rfl
  have h3 : api.group "user_required" = api.userRequiredG := rfl
  simp only [accessLevels, resolveIn, h1, h2, h3, firstTierHit]
  rcases List.lookup name (api.publicG.getD []) with _ | e₁ <;>
    rcases List.lookup name (api.protectedG.getD []) with _ | e₂ <;>
      rcases List.lookup name (api.userRequiredG.getD []) with _ | e₃ <;>
        simp [Option.orElse]

/-- C6 (amended): deterministic collision policy.  The two ports disagree:
PHP `resolveEndpoint` (used by `call`) is first-tier-wins in the fixed
iteration order `public, protected, user_required`, while the Node
endpoint index (used by `getEndpoint` and `call`) is LAST-tier-wins,
because later `Map.set` insertions overwrite earlier ones. -/
theorem tier_collision_policy (api : ApiSection) (name : String)
    (hpub : ((api.publicG.getD []).map Prod.fst).Nodup)
    (hprot : ((api.protectedG.getD []).map Prod.fst).Nodup)
    (huser : ((api.userRequiredG.getD []).map Prod.fst).Nodup) :
    (phpResolveEndpoint api name =
      match firstTierHit api name with
      | some r => .ok r
      | none => .error .endpointNotFound) ∧
    nodeGetEndpoint api name = lastTierHit api name := by
  constructor
  · unfold phpResolveEndpoint
    rw [resolveIn_eq_firstTierHit]
  · exact nodeGetEndpoint_eq_lastTierHit api name hpub hprot huser

/-- A manifest api section in which `dup_op` appears in both the `public`
and the `protected` tier. -/
def collisionApi : ApiSection :=
  { baseUrl := "https://s.example/api",
    publicG := some [("dup_op", ⟨"GET", "/pub"⟩)],
    protectedG := some [("dup_op", ⟨"POST", "/prot"⟩)] }

/-- C6 counterexample: the claim requires the endpoint-index lookup to
return the entry from the earliest tier (`public`), but the Node index
returns the `protected` entry. -/
theorem tier_collision_counterexample :
    nodeGetEndpoint collisionApi "dup_op" =
      some ⟨"dup_op", "protected", ⟨"POST", "/prot"⟩⟩ ∧
    nodeGetEndpoint collisionApi "dup_op" ≠
      some ⟨"dup_op", "public", ⟨"GET", "/pub"⟩⟩ := by
  constructor
  · rfl
  · decide

/-- Witness for C6 on the collision manifest (unique keys per group). -/
theorem tier_collision_policy_witness :
    nodeGetEndpoint collisionApi "dup_op" = lastTierHit collisionApi "dup_op" :=
  (tier_collision_policy collisionApi "dup_op" (by decide) (by decide) (by decide)).2

/-! ## Path substitution (`IaJsonClient::substitutePath`, Node `call`
parameter routing) -/

/-- PCRE `\w` (without the `u` modifier): `[A-Za-z0-9_]`. -/
def isWordChar (c : Char) : Bool := c.isAlphanum || c = '_'

/-- UTF-8 bytes of a character (RFC 3629 arithmetic); URL escaping works
per byte. -/
def utf8Bytes (c : Char) : List Nat :=
  let n := c.toNat
  if n < 128 then [n]
  else if n < 2048 then [192 + n / 64, 128 + n % 64]
  else if n < 65536 then [224 + n / 4096, 128 + n / 64 % 64, 128 + n % 64]
  else [240 + n / 262144, 128 + n / 4096 % 64, 128 + n / 64 % 64, 128 + n % 64]

def hexUpper (n : Nat) : Char := "0123456789ABCDEF".toList.getD n '0'

def percentByte (b : Nat) : List Char := ['%', hexUpper (b / 16), hexUpper (b % 16)]

/-- PHP `rawurlencode`: RFC 3986, everything outside `[A-Za-z0-9-._~]`
percent-encoded per UTF-8 byte. -/
def rawurlencode (s : String) : List Char :=
  s.toList.bind (fun c =>
    if c.isAlphanum || c = '-' || c = '_' || c = '.' || c = '~' then [c]
    else (utf8Bytes c).bind percentByte)

/-- JS `encodeURIComponent`: the unescaped set additionally contains
`! * ' ( )`. -/
def encodeURIComponent (s : String) : List Char :=
  s.toList.bind (fun c =>
    if c.isAlphanum || c = '-' || c = '_' || c = '.' || c = '~' || c = '!' ||
        c = '*' || c = Char.ofNat 39 || c = '(' || c = ')' then [c]
    else (utf8Bytes c).bind percentByte)

/-- Combine one word character with the parse of the remaining text (see
`parseBrace`): extend a successful inner parse, or close the placeholder
when the very next character is `}`. -/
def parseBraceStep (c : Char) (rest : List Char) :
    Option (List Char × List Char) → Option (List Char × List Char)
  | some (w, after) => some (c :: w, after)
  | none =>
    match rest with
    | '}' :: after => some ([c], after)
    | _ => none

/-- Parse `\w+\}` at the head of the text following a `{`: returns the
(maximal, non-empty) word and the text after the closing brace, or `none`
when the regex `\{(\w+)\}` does not match at this position. -/
def parseBrace : List Char → Option (List Char × List Char)
  | [] => none
  | c :: rest =>
    if isWordChar c then parseBraceStep c rest (parseBrace rest)
    else none

/-- A successful `parseBrace` decomposes its input as `w ++ '}' :: after`
with a non-empty all-word `w`. -/
theorem parseBrace_some :
    ∀ l w after, parseBrace l = some (w, after) →
      l = w ++ '}' :: after ∧ w ≠ []
  | [], w, after, h => by simp [parseBrace] at h
  | c :: rest, w, after, h => by
    unfold parseBrace at h
    by_cases hw : isWordChar c = true
    · rw [if_pos hw] at h
      rcases hp : parseBrace rest with _ | ⟨w', after'⟩
      · rw [hp] at h
        simp only [parseBraceStep] at h
        split at h
        · next a heq =>
          injection h with h'
          injection h' with h1 h2
          subst h1; subst h2
          exact ⟨rfl, by simp⟩
        · exact Option.noConfusion h
      · rw [hp] at h
        simp only [parseBraceStep] at h
        injection h with h'
        injection h' with h1 h2
        subst h1; subst h2
        obtain ⟨hsplit, hne⟩ := parseBrace_some rest w' after' hp
        constructor
        · rw [hsplit]; rfl
        · simp
    · rw [if_neg hw] at h
      exact Option.noConfusion h

/-- Fuelled body of `preg_replace_callback('/\{(\w+)\}/', ...)` as used by
`IaJsonClient::substitutePath`: each matched `{word}` placeholder must have
a matching parameter (else the `missing_parameter` exception), which is
`rawurlencode`d, substituted and `unset` from the parameter array; one
unit of fuel is consumed per scanned position, so any fuel of at least the
text length is exact. -/
def phpSubstPathF : Nat → List Char → List (String × String) →
    Except IaErr (List Char × List (String × String))
  | 0, cs, params => .ok (cs, params)
  | _ + 1, [], params => .ok ([], params)
  | fuel + 1, '{' :: rest, params =>
    match parseBrace rest with
    | some (w, after) =>
      match List.lookup (String.mk w) params with
      | none => .error .missingParameter
      | some v =>
        match phpSubstPathF fuel after
            (params.eraseP (fun p => p.1 == String.mk w)) with
        | .error e => .error e
        | .ok (out, ps) => .ok (rawurlencode v ++ out, ps)
    | none =>
      match phpSubstPathF fuel rest params with
      | .error e => .error e
      | .ok (out, ps) => .ok ('{' :: out, ps)
  | fuel + 1, c :: rest, params =>
    match phpSubstPathF fuel rest params with
    | .error e => .error e
    | .ok (out, ps) => .ok (c :: out, ps)

/-- `IaJsonClient::substitutePath` on the path's characters. -/
def phpSubstitutePath (path : List Char) (params : List (String × String)) :
    Except IaErr (List Char × List (String × String)) :=
  phpSubstPathF path.length path params

/-- The placeholder names `\{(\w+)\}` occurring in a path template, in
scan order (same scan as `phpSubstPathF`). -/
def pathPlaceholdersF : Nat → List Char → List String
  | 0, _ => []
  | _ + 1, [] => []
  | fuel + 1, '{' :: rest =>
    match parseBrace rest with
    | some (w, after) => String.mk w :: pathPlaceholdersF fuel after
    | none => pathPlaceholdersF fuel rest
  | fuel + 1, _ :: rest => pathPlaceholdersF fuel rest

def pathPlaceholders (path : List Char) : List String :=
  pathPlaceholdersF path.length path

/-! ## PHP dispatch (`IaJsonClient::call` / `applyAuth`) -/

/-- The `auth.signed_key` section fields consulted by `applyAuth`. -/
structure SignedKeyCfg where
  algorithm : Option String := none
  headerPfx : Option String := none
deriving Repr

/-- The slice of the parsed spec consulted by `call`/`applyAuth`. -/
structure PhpSpec where
  api : ApiSection
  signedKey : Option SignedKeyCfg := none
deriving Repr

/-- A prepared request as handed to `$this->httpClient->request($method,
$url, $options)`; headers/query/body mirror the Guzzle options array. -/
structure PhpRequest where
  method : String
  url : String
  headers : List (String × String)
  query : List (String × String)
  body : String
deriving DecidableEq, Repr

def ltrimSlash (s : String) : List Char :=
  s.toList.dropWhile (fun c => c == '/')

def rtrimSlash (s : String) : List Char :=
  (s.toList.reverse.dropWhile (fun c => c == '/')).reverse

/-- `IaJsonClient::applyAuth`: nothing for `public`; `protected` and
`user_required` require both `apiKey` and `secret` and attach the signed
headers over the serialized body, with algorithm and header prefix from
`auth.signed_key` (defaults `sha256` / `X-IA-`); `user_required`
additionally requires a bearer token — the stored one, or the held OAuth
helper's `getAccessToken()` (whose `AuthenticationException` is swallowed,
any other failure propagates) — else `missingOAuthToken`. -/
def phpApplyAuth (spec : PhpSpec) (st : PhpClientState)
    (hmac : String → String → String → String) (now : Int)
    (level : String) (body : String) : Except IaErr (List (String × String)) :=
  if level = "public" then .ok []
  else
    let signedStep : Except IaErr (List (String × String)) :=
      if level = "protected" ∨ level = "user_required" then
        match st.apiKey, st.secret with
        | some k, some s =>
          .ok (Signer.createSignedHeaders hmac now k s body
            ((spec.signedKey.bind (fun c => c.algorithm)).getD "sha256")
            ((spec.signedKey.bind (fun c => c.headerPfx)).getD "X-IA-"))
        | _, _ => .error .missingCredentials
      else .ok []
    match signedStep with
    | .error e => .error e
    | .ok signedHeaders =>
      if level = "user_required" then
        match st.oauthToken with
        | some t => .ok (signedHeaders ++ [("Authorization", "Bearer " ++ t)])
        | none =>
          match st.oauthHelper with
          | none => .error .missingOAuthToken
          | some (.ok t) => .ok (signedHeaders ++ [("Authorization", "Bearer " ++ t)])
          | some (.error e) =>
            if e.isAuthException then .error .missingOAuthToken else .error e
      else .ok signedHeaders

/-- `IaJsonClient::call` up to the transport handoff: resolve the endpoint,
substitute path parameters, split the remaining params into a JSON body
(POST/PUT/PATCH) or query string (GET), apply authentication, and return
the prepared request; every `.error` is raised before any network I/O.
`json_encode` is the `jsonEnc` collaborator. -/
def phpCall (spec : PhpSpec) (st : PhpClientState) (name : String)
    (params : List (String × String)) (now : Int)
    (hmac : String → String → String → String)
    (jsonEnc : List (String × String) → String) : Except IaErr PhpRequest :=
  match phpResolveEndpoint spec.api name with
  | .error e => .error e
  | .ok (ep, level) =>
    let method := String.mk (ep.method.toList.map Char.toUpper)
    match phpSubstitutePath ep.path.toList params with
    | .error e => .error e
    | .ok (pathChars, params') =>
      let url := String.mk (rtrimSlash spec.api.baseUrl) ++ "/" ++
        String.mk (ltrimSlash (String.mk pathChars))
      let isBodyMethod := method = "POST" ∨ method = "PUT" ∨ method = "PATCH"
      let body := if isBodyMethod ∧ params' ≠ [] then jsonEnc params' else ""
      let headers₀ := [("Accept", "application/json"),
          ("User-Agent", "iajson-php/1.0.0")] ++
        (if isBodyMethod ∧ params' ≠ [] then [("Content-Type", "application/json")]
         else [])
      let query := if method = "GET" ∧ params' ≠ [] then params' else []
      match phpApplyAuth spec st hmac now level body with
      | .error e => .error e
      | .ok authHeaders =>
        .ok { method := method, url := url, headers := headers₀ ++ authHeaders,
              query := query, body := body }

/-! ## Node dispatch (`IaJsonClient.call` in `client.ts`) -/

/-- The slice of the Node config consulted by `call`. -/
structure NodeConfig where
  api : ApiSection
  /-- `config.auth?.signed_key?.header_prefix`. -/
  headerPfx : Option String := none
deriving Repr

/-- A prepared request as handed to `fetch` (path still relative; the model
keeps query parameters separately from the `URL` object). -/
structure NodeRequest where
  method : String
  path : List Char
  query : List (String × String)
  headers : List (String × String)
  body : String
deriving DecidableEq, Repr

/-- JS `String.prototype.replace` with a string pattern: first occurrence
only. -/
def replaceFirst (s pat repl : List Char) : List Char :=
  match s with
  | [] => []
  | c :: rest =>
    if pat.isPrefixOf (c :: rest) then repl ++ (c :: rest).drop pat.length
    else c :: replaceFirst rest pat repl

/-- JS `String.prototype.includes`. -/
def listContains (s pat : List Char) : Bool :=
  (List.range (s.length + 1)).any (fun i => pat.isPrefixOf (s.drop i))

/-- Node `sign` (`auth/signer.ts`): HMAC-SHA256 hex over
`"{timestamp}.{body}"`; the algorithm is fixed. -/
def nodeSign (hmac : String → String → String → String) (secret : String)
    (timestamp : Int) (body : String) : String :=
  hmac "sha256" (toString timestamp ++ "." ++ body) secret

/-- Node `createSignedHeaders`: Key, Timestamp, Signature (in source
order), current wall-clock timestamp. -/
def nodeCreateSignedHeaders (hmac : String → String → String → String)
    (now : Int) (apiKey secret body pfx : String) : List (String × String) :=
  [(pfx ++ "Key", apiKey), (pfx ++ "Timestamp", toString now),
   (pfx ++ "Signature", nodeSign hmac secret now body)]

/-- Node `IaJsonClient.call` up to the `fetch` handoff: index lookup;
parameter routing (a `{key}` placeholder present in the path is replaced at
its first occurrence by the encoded value, otherwise the pair goes to the
query for GET/DELETE or to the JSON body); headers: Accept, Content-Type
when a body is present, signed headers whenever the level is non-public
AND credentials are held, bearer whenever the level is `user_required` AND
a token is held; then the two credential checks (`protected` without
credentials, `user_required` without both token and credentials) throw
before `fetch`.  No missing-placeholder check exists. -/
def nodeCall (cfg : NodeConfig) (creds : Option (String × String))
    (accessToken : Option String) (name : String)
    (params : List (String × String)) (now : Int)
    (hmac : String → String → String → String)
    (jsonEnc : List (String × String) → String) : Except IaErr NodeRequest :=
  match nodeGetEndpoint cfg.api name with
  | none => .error .endpointNotFound
  | some r =>
    let method := r.endpoint.method
    let routed := params.foldl
      (fun (st : List Char × List (String × String) × List (String × String)) p =>
        let placeholder := '{' :: p.1.toList ++ ['}']
        if listContains st.1 placeholder then
          (replaceFirst st.1 placeholder (encodeURIComponent p.2), st.2.1, st.2.2)
        else if method = "GET" ∨ method = "DELETE" then
          (st.1, st.2.1 ++ [p], st.2.2)
        else (st.1, st.2.1, st.2.2 ++ [p]))
      (r.endpoint.path.toList, [], [])
    let hasBody := method ≠ "GET" ∧ method ≠ "DELETE" ∧ routed.2.2 ≠ []
    let bodyString := if hasBody then jsonEnc routed.2.2 else ""
    let headers₀ := [("Accept", "application/json")] ++
      (if hasBody then [("Content-Type", "application/json")] else [])
    let headers₁ := headers₀ ++
      (match creds with
       | some (k, s) =>
         if r.level ≠ "public" then
           nodeCreateSignedHeaders hmac now k s bodyString (cfg.headerPfx.getD "X-IA-")
         else []
       | none => [])
    let headers₂ := headers₁ ++
      (match accessToken with
       | some t =>
         if r.level = "user_required" then [("Authorization", "Bearer " ++ t)]
         else []
       | none => [])
    if r.level = "protected" ∧ creds = none then .error .missingCredentials
    else if r.level = "user_required" ∧ accessToken = none ∧ creds = none then
      .error .missingCredentials
    else
      .ok { method := method, path := routed.1, query := routed.2.1,
            headers := headers₂, body := bodyString }

theorem lookup_eraseP_none (ps : List (String × String)) (k : String)
    (q : String × String → Bool) (h : List.lookup k ps = none) :
    List.lookup k (ps.eraseP q) = none := by
  induction ps with
  | nil => rfl
  | cons p rest ih =>
    rcases p with ⟨k', v⟩
    by_cases hk : k = k'
    · subst hk
      simp [List.lookup] at h
    · have hb : (k == k') = false := by simp [hk]
      simp only [List.lookup, hb] at h
      rcases hq : q (k', v) with _ | _
      · simp only [List.eraseP_cons, hq, cond_false, List.lookup, hb]
        exact ih h
      · simp only [List.eraseP_cons, hq, cond_true]
        exact h

theorem pathPlaceholdersF_cons_ne (n : Nat) (c : Char) (rest : List Char)
    (hc : c ≠ '{') :
    pathPlaceholdersF (n + 1) (c :: rest) = pathPlaceholdersF n rest := by
  rw [pathPlaceholdersF.eq_def]
  split
  · next heq => exact absurd heq (Nat.succ_ne_zero n)
  · next heq => exact absurd heq (by simp)
  · next heq₁ heq₂ =>
    injection heq₂ with hch _
    exact absurd hch hc
  · next heq₁ heq₂ =>
    injection heq₁ with hn
    injection heq₂ with _ hr
    rw [hn, hr]

theorem phpSubstPathF_cons_ne (n : Nat) (c : Char) (rest : List Char)
    (params : List (String × String)) (hc : c ≠ '{') :
    phpSubstPathF (n + 1) (c :: rest) params =
      match phpSubstPathF n rest params with
      | .error e => .error e
      | .ok (out, ps) => .ok (c :: out, ps) := by
  rw [phpSubstPathF.eq_def]
  split
  · next heq => exact absurd heq (Nat.succ_ne_zero n)
  · next heq => exact absurd heq (by simp)
  · next heq₁ heq₂ =>
    injection heq₂ with hch _
    exact absurd hch hc
  · next heq₁ heq₂ =>
    injection heq₁ with hn
    injection heq₂ with hch hr
    rw [hn, hch, hr]

/-- Scanning a template whose placeholders include a name the parameter
set lacks raises the `missing_parameter` failure (whatever else the
template contains). -/
theorem phpSubstPathF_missing :
    ∀ (fuel : Nat) (cs : List Char) (params : List (String × String)) (k : String),
      k ∈ pathPlaceholdersF fuel cs → List.lookup k params = none →
      phpSubstPathF fuel cs params = .error .missingParameter := by
  intro fuel
  induction fuel with
  | zero =>
    intro cs params k hk _
    simp [pathPlaceholdersF] at hk
  | succ n ih =>
    intro cs params k hk hm
    rcases cs with _ | ⟨c, rest⟩
    · simp [pathPlaceholdersF] at hk
    · by_cases hc : c = '{'
      · subst hc
        rcases hp : parseBrace rest with _ | ⟨w, after⟩
        · simp only [pathPlaceholdersF, hp] at hk
          simp only [phpSubstPathF, hp]
          rw [ih rest params k hk hm]
        · simp only [pathPlaceholdersF, hp, List.mem_cons] at hk
          simp only [phpSubstPathF, hp]
          rcases hk with hkw | hk'
          · subst hkw
            rw [hm]
          · rcases hl : List.lookup (String.mk w) params with _ | v
            · rfl
            · rw [ih after _ k hk' (lookup_eraseP_none params k _ hm)]
      · rw [pathPlaceholdersF_cons_ne n c rest hc] at hk
        rw [phpSubstPathF_cons_ne n c rest params hc]
        rw [ih rest params k hk hm]

/-- C7 (amended): missing path parameter.  PHP: for every operation
resolved by `call` whose path template contains a `{key}` placeholder with
no matching supplied parameter, `call` fails with `MissingParameter`
before any network I/O.  Node: no such check exists — with no parameters
supplied, `call` on a (public) endpoint issues the request with the path
template passed through verbatim, any `{key}` placeholders included. -/
theorem missing_path_parameter (spec : PhpSpec) (st : PhpClientState)
    (name : String) (params : List (String × String)) (now : Int)
    (hmac : String → String → String → String)
    (jsonEnc : List (String × String) → String) :
    (∀ ep level k, phpResolveEndpoint spec.api name = .ok (ep, level) →
      k ∈ pathPlaceholders ep.path.toList → List.lookup k params = none →
      phpCall spec st name params now hmac jsonEnc = .error .missingParameter) ∧
    (∀ cfg r, nodeGetEndpoint cfg.api name = some r → r.level = "public" →
      nodeCall cfg none none name [] now hmac jsonEnc =
        .ok { method := r.endpoint.method, path := r.endpoint.path.toList,
              query := [], headers := [("Accept", "application/json")],
              body := "" }) := by
  constructor
  · intro ep level k hres hk hm
    have hsub : phpSubstitutePath ep.path.toList params = .error .missingParameter :=
      phpSubstPathF_missing _ _ _ k hk hm
    simp only [phpCall, hres, hsub]
  · intro cfg r hres hlevel
    simp only [nodeCall, hres, List.foldl_nil, hlevel]
    simp

/-- A spec whose only operation has a `{id}` path placeholder. -/
def phpPathSpec : PhpSpec :=
  { api := { baseUrl := "https://s.example/api",
             publicG := some [("get_product", ⟨"GET", "/products/{id}"⟩)] } }

/-- Witness for C7: calling `get_product` with no parameters fails with
`missing_parameter` in the PHP client. -/
theorem missing_path_parameter_witness :
    phpCall phpPathSpec ⟨none, none, none, none⟩ "get_product" [] 0
        (fun _ _ _ => "") (fun _ => "") = .error .missingParameter :=
  (missing_path_parameter phpPathSpec ⟨none, none, none, none⟩ "get_product" [] 0
      (fun _ _ _ => "") (fun _ => "")).1 ⟨"GET", "/products/{id}"⟩ "public" "id"
    rfl (by decide) rfl

/-- A Node config whose only operation has a `{id}` path placeholder. -/
def nodePathCfg : NodeConfig :=
  { api := { baseUrl := "https://s.example/api",
             publicG := some [("get_product", ⟨"GET", "/products/{id}"⟩)] } }

/-- C7 counterexample: the claim requires `call` to fail with
`MissingParameter` before any network I/O whenever a placeholder has no
supplied value, but the Node `call` issues the request — with the literal
`{id}` placeholder still in the path. -/
theorem missing_path_parameter_counterexample :
    nodeCall nodePathCfg none none "get_product" [] 0
        (fun _ _ _ => "") (fun _ => "") =
      .ok { method := "GET", path := "/products/{id}".toList, query := [],
            headers := [("Accept", "application/json")], body := "" } := by
  rfl

theorem mem_ite_nil {α : Type} (P : Prop) [Decidable P] (l : List α) (x : α)
    (h : x ∈ if P then l else []) : x ∈ l := by
  split at h
  · exact h
  · exact absurd h (List.not_mem_nil x)

/-- A resolved level comes from the iterated level list. -/
theorem resolveIn_level_mem (api : ApiSection) (name : String) :
    ∀ (ls : List String) (e : Endpoint) (lvl : String),
      resolveIn api name ls = some (e, lvl) → lvl ∈ ls
  | [], e, lvl, h => by simp [resolveIn] at h
  | l :: rest, e, lvl, h => by
    simp only [resolveIn] at h
    rcases hl : List.lookup name ((api.group l).getD []) with _ | e'
    · rw [hl] at h
      exact List.mem_cons_of_mem _ (resolveIn_level_mem api name rest e lvl h)
    · rw [hl] at h
      injection h with h'
      injection h' with _ hlvl
      rw [← hlvl]
      exact List.mem_cons_self _ _

/-- When `applyAuth` succeeds at a signed tier with credentials present,
the returned headers carry the signature over exactly the supplied body. -/
theorem phpApplyAuth_signature_mem (spec : PhpSpec) (st : PhpClientState)
    (hmac : String → String → String → String) (now : Int) (level body : String)
    (ah : List (String × String)) (k s : String)
    (hk : st.apiKey = some k) (hs : st.secret = some s)
    (hlv : level = "protected" ∨ level = "user_required")
    (happ : phpApplyAuth spec st hmac now level body = .ok ah) :
    ((spec.signedKey.bind (fun c => c.headerPfx)).getD "X-IA-" ++ "Signature",
      Signer.sign hmac s now body
        ((spec.signedKey.bind (fun c => c.algorithm)).getD "sha256")) ∈ ah := by
  rcases hlv with hlv | hlv <;> subst hlv
  · simp [phpApplyAuth, hk, hs] at happ
    rw [← happ]
    simp [Signer.createSignedHeaders]
  · simp [phpApplyAuth, hk, hs] at happ
    rcases ht : st.oauthToken with _ | t
    · rw [ht] at happ
      rcases hh : st.oauthHelper with _ | res
      · rw [hh] at happ
        exact Except.noConfusion happ
      · rw [hh] at happ
        rcases res with e | t'
        · have happ' : (if e.isAuthException = true
              then (Except.error IaErr.missingOAuthToken :
                Except IaErr (List (String × String)))
              else .error e) = .ok ah := happ
          split at happ' <;> exact Except.noConfusion happ'
        · have happ' : (Except.ok (Signer.createSignedHeaders hmac now k s body
              ((spec.signedKey.bind (fun c => c.algorithm)).getD "sha256")
              ((spec.signedKey.bind (fun c => c.headerPfx)).getD "X-IA-") ++
              [("Authorization", "Bearer " ++ t')]) :
              Except IaErr (List (String × String))) = .ok ah := happ
          injection happ' with h'
          rw [← h']
          apply List.mem_append_left
          simp [Signer.createSignedHeaders]
    · rw [ht] at happ
      simp at happ
      rw [← happ]
      apply List.mem_append_left
      simp [Signer.createSignedHeaders]

/-- C3 (amended): tier-driven authentication attachment.  PHP `applyAuth`
behaves as the claim states: `public` attaches nothing; `protected` and
`user_required` require both stored credentials (else
`missingCredentials`, raised before the request); `protected` attaches
exactly the three signed headers computed over the serialized body that
`call` sends; `user_required` additionally requires a bearer token — from
the stored token or a held OAuth helper — (else `missingOAuthToken`) and
attaches `Authorization: Bearer {token}` after the signed headers; in any
successful non-public `call` the signature in the sent headers is over the
request's own body.  The Node `call` diverges from the claim: `protected`
without credentials and `user_required` with neither token nor credentials
fail before `fetch`, but `user_required` with credentials and no token
issues the request WITHOUT any `Authorization` header, and `user_required`
with a token and no credentials issues the request (bearer attached,
signed-key headers absent). -/
theorem tier_auth_attachment (now : Int)
    (hmac : String → String → String → String) :
    (∀ spec st body, phpApplyAuth spec st hmac now "public" body = .ok []) ∧
    (∀ spec st body level, (level = "protected" ∨ level = "user_required") →
      (st.apiKey = none ∨ st.secret = none) →
      phpApplyAuth spec st hmac now level body = .error .missingCredentials) ∧
    (∀ spec st body k s, st.apiKey = some k → st.secret = some s →
      phpApplyAuth spec st hmac now "protected" body =
        .ok (Signer.createSignedHeaders hmac now k s body
          ((spec.signedKey.bind (fun c => c.algorithm)).getD "sha256")
          ((spec.signedKey.bind (fun c => c.headerPfx)).getD "X-IA-"))) ∧
    (∀ spec st body k s, st.apiKey = some k → st.secret = some s →
      st.oauthToken = none →
      (st.oauthHelper = none ∨
        ∃ e, st.oauthHelper = some (.error e) ∧ e.isAuthException = true) →
      phpApplyAuth spec st hmac now "user_required" body =
        .error .missingOAuthToken) ∧
    (∀ spec st body k s t, st.apiKey = some k → st.secret = some s →
      st.oauthToken = some t →
      phpApplyAuth spec st hmac now "user_required" body =
        .ok (Signer.createSignedHeaders hmac now k s body
            ((spec.signedKey.bind (fun c => c.algorithm)).getD "sha256")
            ((spec.signedKey.bind (fun c => c.headerPfx)).getD "X-IA-") ++
          [("Authorization", "Bearer " ++ t)])) ∧
    (∀ spec st name params jsonEnc ep lvl req k s,
      st.apiKey = some k → st.secret = some s →
      phpResolveEndpoint spec.api name = .ok (ep, lvl) → lvl ≠ "public" →
      phpCall spec st name params now hmac jsonEnc = .ok req →
      ((spec.signedKey.bind (fun c => c.headerPfx)).getD "X-IA-" ++ "Signature",
        Signer.sign hmac s now req.body
          ((spec.signedKey.bind (fun c => c.algorithm)).getD "sha256")) ∈
        req.headers) ∧
    (∀ cfg tok name params jsonEnc r, nodeGetEndpoint cfg.api name = some r →
      r.level = "protected" →
      nodeCall cfg none tok name params now hmac jsonEnc =
        .error .missingCredentials) ∧
    (∀ cfg name params jsonEnc r, nodeGetEndpoint cfg.api name = some r →
      r.level = "user_required" →
      nodeCall cfg none none name params now hmac jsonEnc =
        .error .missingCredentials) ∧
    (∀ cfg k s name params jsonEnc r, cfg.headerPfx = none →
      nodeGetEndpoint cfg.api name = some r → r.level = "user_required" →
      ∃ req, nodeCall cfg (some (k, s)) none name params now hmac jsonEnc =
          .ok req ∧
        ∀ v, ("Authorization", v) ∉ req.headers) ∧
    (∀ cfg t name params jsonEnc r, nodeGetEndpoint cfg.api name = some r →
      r.level = "user_required" →
      ∃ req, nodeCall cfg none (some t) name params now hmac jsonEnc = .ok req ∧
        ("Authorization", "Bearer " ++ t) ∈ req.headers) := by
  refine ⟨?_, ?_, ?_, ?_, ?_, ?_, ?_, ?_, ?_, ?_⟩
  · intro spec st body
    simp [phpApplyAuth]
  · intro spec st body level hlv hmiss
    rcases hlv with h | h <;> subst h
    · rcases hak : st.apiKey with _ | k
      · simp [phpApplyAuth, hak]
      · rcases hmiss with hm | hm
        · rw [hak] at hm
          exact Option.noConfusion hm
        · simp [phpApplyAuth, hak, hm]
    · rcases hak : st.apiKey with _ | k
      · simp [phpApplyAuth, hak]
      · rcases hmiss with hm | hm
        · rw [hak] at hm
          exact Option.noConfusion hm
        · simp [phpApplyAuth, hak, hm]
  · intro spec st body k s hk hs
    simp [phpApplyAuth, hk, hs]
  · intro spec st body k s hk hs ht hh
    simp [phpApplyAuth, hk, hs, ht]
    rcases hh with h | ⟨e, h, hauth⟩
    · simp [h]
    · simp [h, hauth]
  · intro spec st body k s t hk hs ht
    simp [phpApplyAuth, hk, hs, ht]
  · intro spec st name params jsonEnc ep lvl req k s hk hs hres hnp hok
    have hmem : lvl ∈ accessLevels := by
      unfold phpResolveEndpoint at hres
      rcases hri : resolveIn spec.api name accessLevels with _ | r
      · rw [hri] at hres
        exact Except.noConfusion hres
      · rw [hri] at hres
        injection hres with h'
        rcases r with ⟨e', lvl'⟩
        injection h' with _ hlvl
        subst hlvl
        exact resolveIn_level_mem spec.api name accessLevels e' lvl' hri
    have hlv : lvl = "protected" ∨ lvl = "user_required" := by
      simp only [accessLevels, List.mem_cons, List.not_mem_nil, or_false] at hmem
      rcases hmem with h | h | h
      · exact absurd h hnp
      · exact Or.inl h
      · exact Or.inr h
    simp only [phpCall, hres] at hok
    rcases hsub : phpSubstitutePath ep.path.toList params with e | pr
    · rw [hsub] at hok
      exact Except.noConfusion hok
    · rw [hsub] at hok
      rcases pr with ⟨pathChars, params'⟩
      simp only at hok
      rcases happ : phpApplyAuth spec st hmac now lvl
          (if (String.mk (ep.method.toList.map Char.toUpper) = "POST" ∨
              String.mk (ep.method.toList.map Char.toUpper) = "PUT" ∨
              String.mk (ep.method.toList.map Char.toUpper) = "PATCH") ∧ params' ≠ []
            then jsonEnc params' else "") with e | ah
      · rw [happ] at hok
        exact Except.noConfusion hok
      · rw [happ] at hok
        injection hok with h'
        rw [← h']
        apply List.mem_append_right
        exact phpApplyAuth_signature_mem spec st hmac now lvl _ ah k s hk hs hlv happ
  · intro cfg tok name params jsonEnc r hres hlevel
    simp only [nodeCall, hres, hlevel]
    rw [if_pos (by simp)]
  · intro cfg name params jsonEnc r hres hlevel
    simp only [nodeCall, hres, hlevel]
    rw [if_neg (by simp), if_pos (by simp)]
  · intro cfg k s name params jsonEnc r hpfx hres hlevel
    simp only [nodeCall, hres, hlevel, hpfx]
    rw [if_neg (by simp), if_neg (by simp)]
    refine ⟨_, rfl, ?_⟩
    intro v hmem
    rcases List.mem_append.mp hmem with h12 | h3
    · rcases List.mem_append.mp h12 with h1 | h2
      · rcases List.mem_append.mp h1 with ha | hct
        · simp at ha
        · have := mem_ite_nil _ _ _ hct
          simp at this
      · have h2' := mem_ite_nil _ _ _ h2
        simp [nodeCreateSignedHeaders, nodeSign] at h2'
    · simp at h3
  · intro cfg t name params jsonEnc r hres hlevel
    simp only [nodeCall, hres, hlevel]
    rw [if_neg (by simp), if_neg (by simp)]
    refine ⟨_, rfl, ?_⟩
    apply List.mem_append_right
    simp

/-- A Node config with a single `user_required` operation. -/
def userReqCfg : NodeConfig :=
  { api := { baseUrl := "https://s.example/api",
             userRequiredG := some [("get_orders", ⟨"GET", "/orders"⟩)] } }

/-- C3 counterexample: the claim requires a `UserRequired` call with no
bearer token to fail with an authentication failure before any network
request, but the Node `call` with a KeyCredential and no token issues the
request — signed headers only, no `Authorization`. -/
theorem tier_auth_counterexample :
    nodeCall userReqCfg (some ("ak", "sk")) none "get_orders" [] 7
        (fun a d key => a ++ ":" ++ d ++ ":" ++ key) (fun _ => "") =
      .ok { method := "GET", path := "/orders".toList, query := [],
            headers := [("Accept", "application/json"),
                        ("X-IA-Key", "ak"), ("X-IA-Timestamp", "7"),
                        ("X-IA-Signature", "sha256:7.:sk")],
            body := "" } := by
  rfl

/-- Witness for C3: `protected` with stored credentials gets exactly the
signed headers (default algorithm and prefix). -/
theorem tier_auth_attachment_witness :
    phpApplyAuth { api := { baseUrl := "https://s.example/api" } }
        ⟨some "ak", some "sk", none, none⟩
        (fun a d key => a ++ ":" ++ d ++ ":" ++ key) 7 "protected" "{}" =
      .ok (Signer.createSignedHeaders
        (fun a d key => a ++ ":" ++ d ++ ":" ++ key) 7 "ak" "sk" "{}"
        "sha256" "X-IA-") :=
  (tier_auth_attachment 7 (fun a d key => a ++ ":" ++ d ++ ":" ++ key)).2.2.1
    { api := { baseUrl := "https://s.example/api" } }
    ⟨some "ak", some "sk", none, none⟩ "{}" "ak" "sk" rfl rfl

end IaJson
